import Mathlib

/-!
Verification development for the CellsDominion ecosystem simulator.

The JavaScript sources are shallowly embedded in Lean:
* JS numbers become `ℚ` (the simulator only adds, multiplies, divides,
  floors, clamps and compares; no transcendental result is ever stored
  except through `Math.cos`/`Math.sin`/`Math.sqrt`, which are handled as
  documented at each use site);
* `Math.random()` outputs become explicit oracle streams `ℕ → ℚ`,
  constrained to `[0,1)` exactly where a theorem needs it;
* JS `x || d` on possibly-undefined numeric fields becomes `jsOr`
  (`undefined` and `0` are falsy, so both select the default);
* code that throws becomes `Except`, carrying the partially mutated state;
* object references become ids (`ℕ`), containers become lists.

Namespaces mirror the source files: `CameraJS` for `src/js/camera.js`,
`CellJS` for `src/js/cell.js`, `SimJS` for `src/js/simulation.js`, and
`P0` for `src/unnamed/part_000`.
-/

namespace CameraJS

/-- Food particle from `src/js/camera.js` (class `Food`, lines 614-658).
`age` counts whole update ticks and is kept as `ℕ`; `maxAge` is the
randomly drawn threshold `1800 + Math.random() * 1200`, kept as `ℚ`. -/
structure Food where
  x : ℚ
  y : ℚ
  radius : ℚ
  energyValue : ℚ
  consumed : Bool
  age : ℕ
  maxAge : ℚ
  decay : ℚ
  deriving Repr, DecidableEq, Inhabited

/-- `Food` constructor (camera.js lines 615-628).  `size` is the optional
constructor argument; `this.radius = size || (2 + Math.random() * 4)`
treats both `undefined`/`null` and `0` as falsy, hence the `jsOr`-style
match.  `rSize` and `rAge` are the two `Math.random()` draws. -/
def Food.create (x y : ℚ) (size : Option ℚ) (rSize rAge : ℚ) : Food :=
  let radius : ℚ :=
    match size with
    | some s => if s = 0 then 2 + rSize * 4 else s
    | none => 2 + rSize * 4
  { x := x, y := y, radius := radius
    energyValue := radius * 8
    consumed := false
    age := 0
    maxAge := 1800 + rAge * 1200
    decay := 1 }

/-- `Food.update` (camera.js lines 641-658): `consumed` short-circuits to
`false`; otherwise `age` is incremented, the render-only `decay` factor is
recomputed, and the particle reports expiry once `age > maxAge`.  The JS
method mutates `this` and returns a `Bool`; here the updated particle is
returned alongside. -/
def Food.update (f : Food) : Bool × Food :=
  if f.consumed then (false, f)
  else
    let age : ℕ := f.age + 1
    let decay : ℚ :=
      if (age : ℚ) > f.maxAge * (8 / 10) then
        max 0 (1 - (((age : ℚ) - f.maxAge * (8 / 10)) / (f.maxAge * (2 / 10))))
      else f.decay
    let f : Food := { f with age := age, decay := decay }
    if (f.age : ℚ) > f.maxAge then (false, f) else (true, f)

/-- Food manager state from `src/js/camera.js` (class `FoodManager`). -/
structure FoodManager where
  width : ℚ
  height : ℚ
  food : List Food
  maxFood : ℕ
  spawnRate : ℚ
  spawnCooldown : ℚ
  deriving Repr, Inhabited

/-- Oracle for the `Math.random()`, `Math.cos(angle)` and `Math.sin(angle)`
values consumed while spawning food.  `co i`/`si i` stand for the cosine
and sine of the `i`-th scatter angle (arbitrary reals in `[-1,1]`, supplied
as oracle values since the angle itself is irrational); `di i` is the
distance draw; `cat i`/`sz i` are the two draws of `spawnFood`'s weighted
size distribution; `ageR i` is the `maxAge` draw of the `Food` constructor. -/
structure SpawnOracle where
  co : ℕ → ℚ
  si : ℕ → ℚ
  di : ℕ → ℚ
  cat : ℕ → ℚ
  sz : ℕ → ℚ
  ageR : ℕ → ℚ

/-- `FoodManager.spawnFood` (camera.js lines 732-750) at an explicit
position: the weighted size distribution picks small (60%), medium (30%)
or large (10%) and pushes a new particle. `rCat` and `rSz` are the two
`Math.random()` draws, `rAge` the constructor's `maxAge` draw. -/
def FoodManager.spawnFood (fm : FoodManager) (x y : ℚ) (rCat rSz rAge : ℚ) :
    FoodManager :=
  let size : ℚ :=
    if rCat < 6 / 10 then 2 + rSz * 2
    else if rCat < 9 / 10 then 3 + rSz * 3
    else 5 + rSz * 3
  { fm with food := fm.food ++ [Food.create x y (some size) 0 rAge] }

/-- `FoodManager.spawnFromDeath` (camera.js lines 753-765): scatters
`Math.floor(cellSize / 4) + 1` particles around the death point, each at
offset `cos(angle) * distance` / `sin(angle) * distance` with
`distance = Math.random() * cellSize * 2`, clamped into the world margins.
The trigonometric values are oracle inputs (see `SpawnOracle`). -/
def FoodManager.spawnFromDeath (fm : FoodManager) (x y cellSize : ℚ)
    (o : SpawnOracle) : FoodManager :=
  let nutrientCount : ℕ := (⌊cellSize / 4⌋ + 1).toNat
  (List.range nutrientCount).foldl
    (fun fm i =>
      let distance : ℚ := o.di i * cellSize * 2
      let spawnX : ℚ := max 10 (min (fm.width - 10) (x + o.co i * distance))
      let spawnY : ℚ := max 10 (min (fm.height - 10) (y + o.si i * distance))
      fm.spawnFood spawnX spawnY (o.cat i) (o.sz i) (o.ageR i))
    fm

/-- `FoodManager.update` (camera.js lines 720-730): drop consumed/expired
particles via `Food.update`, decrement the spawn cooldown, and spawn one
particle when the cooldown has run out and the population is below the
cap, resetting the cooldown to `max(1, 60 / spawnRate)`. -/
def FoodManager.update (fm : FoodManager) (o : SpawnOracle) : FoodManager :=
  let food := (fm.food.map Food.update).filterMap
    (fun p => if p.1 then some p.2 else none)
  let fm := { fm with food := food, spawnCooldown := fm.spawnCooldown - 1 }
  if fm.spawnCooldown ≤ 0 ∧ fm.food.length < fm.maxFood then
    let fm := fm.spawnFood (o.di 0 * fm.width) (o.si 0 * fm.height)
      (o.cat 0) (o.sz 0) (o.ageR 0)
    { fm with spawnCooldown := max 1 (60 / fm.spawnRate) }
  else fm

end CameraJS

/-- JS `x || d` for a possibly-undefined numeric field: `undefined` and
`0` are falsy, so both fall back to the default `d`. -/
def jsOr (o : Option ℚ) (d : ℚ) : ℚ :=
  match o with
  | none => d
  | some v => if v = 0 then d else v

/-- JS `Math.sqrt(dx*dx + dy*dy) < r`.  Since the square root is
nonnegative, this holds iff `r` is positive and `dx² + dy² < r²`; the
squared form avoids irrational intermediate values. -/
def sqrtDistLt (dx dy r : ℚ) : Bool :=
  decide (0 < r) && decide (dx ^ 2 + dy ^ 2 < r ^ 2)

namespace CellJS

/-- Heritable trait vector of a cell (`src/js/cell.js` constructor lines
222-257).  Numeric traits are `ℚ`, categorical traits are the literal JS
strings, `generation` is carried inside the vector exactly as `mutate`
returns it. -/
structure Traits where
  health : ℚ
  maxHealth : ℚ
  size : ℚ
  speed : ℚ
  energy : ℚ
  maxEnergy : ℚ
  shape : String
  defenseType : String
  specialAbility : String
  metabolismType : String
  socialBehavior : String
  lifestage : String
  temperatureTolerance : ℚ
  acidTolerance : ℚ
  radiationResistance : ℚ
  visionRange : ℚ
  communicationRange : ℚ
  pheromoneProduction : ℚ
  toxinResistance : ℚ
  magneticSensitivity : ℚ
  electrogenesis : ℚ
  generation : ℤ
  deriving Repr, DecidableEq, Inhabited

/-- Per-defense-type state bag (`this.defenseStates`, cell.js lines
306-329).  Only the fields read by the embedded methods are modelled;
`territoryRadius` is initialised to `size * 8` by the constructor. -/
structure DefenseStates where
  territoryRadius : ℚ
  deriving Repr, DecidableEq, Inhabited

/-- Runtime cell state (`src/js/cell.js` class `Cell`).  Object
references become ids: `colony` holds the owning colony's id, `bonds` and
`target` hold cell ids.  Fields not read by any embedded method are
omitted. -/
structure Cell where
  id : ℕ
  x : ℚ
  y : ℚ
  radius : ℚ
  opacity : ℚ
  age : ℚ
  generation : ℤ
  reproduced : Bool
  lastReproduction : ℚ
  target : Option ℕ
  colony : Option ℕ
  bonds : List ℕ
  maxBonds : ℕ
  bondStrength : List (ℕ × ℚ)
  colonyRole : String
  territory : Option (ℚ × ℚ × ℚ)
  defenseStates : DefenseStates
  traits : Traits
  deriving Repr, DecidableEq, Inhabited

/-- Shape enumeration (cell.js `randomShape`, lines 344-347). -/
def shapes : List String :=
  ["circle", "triangle", "square", "hexagon", "oval", "star", "diamond"]

/-- Defense-type enumeration (cell.js `randomDefenseType`, lines 349-358). -/
def defenseTypes : List String :=
  ["spikes", "poison", "armor", "regen", "camo",
   "shield", "electric", "magnetic", "phase", "swarm",
   "mimic", "explosive", "viral", "barrier", "reflect"]

/-- Special-ability enumeration (cell.js `randomSpecialAbility`, lines
360-367). -/
def specialAbilities : List String :=
  ["none", "photosynthesis", "parasite", "pack_hunter", "territorial",
   "migratory", "burrowing", "leaping", "splitting", "fusion",
   "time_dilation", "energy_vampire", "shape_shift", "invisibility"]

/-- Metabolism enumeration (cell.js `randomMetabolismType`, lines 369-372). -/
def metabolismTypes : List String :=
  ["normal", "efficient", "burst", "parasitic", "photosynthetic"]

/-- Social-behavior enumeration (cell.js `randomSocialBehavior`, lines
374-377). -/
def socialBehaviors : List String :=
  ["solitary", "cooperative", "aggressive", "territorial", "pack"]

/-- JS `xs[Math.floor(r * xs.length)]` for `r ∈ [0,1)`; the default is
unreachable for in-range draws. -/
def pickUniform (xs : List String) (r : ℚ) : String :=
  xs.getD (⌊r * xs.length⌋).toNat ""

/-- One numeric-trait mutation branch of `Cell.mutate` (cell.js, e.g.
lines 2506-2509): roll `rng i < rate`, and on success clamp
`v + (rng (i+1) - 0.5) * span` into `[lo, hi]`.  Returns the new value,
the next unused draw index, and whether the branch fired (the health and
energy branches additionally overwrite `health`/`energy` when they fire). -/
def mutNum (lo hi span v rate : ℚ) (rng : ℕ → ℚ) (i : ℕ) : ℚ × ℕ × Bool :=
  if rng i < rate then
    (max lo (min hi (v + (rng (i + 1) - 1 / 2) * span)), i + 2, true)
  else (v, i + 1, false)

/-- One categorical-trait mutation branch of `Cell.mutate` (cell.js, e.g.
lines 2529-2531): roll `rng i < prob`, on success pick uniformly from the
enumerated set using draw `rng (i+1)`. -/
def mutCat (xs : List String) (v : String) (prob : ℚ) (rng : ℕ → ℚ)
    (i : ℕ) : String × ℕ :=
  if rng i < prob then (pickUniform xs (rng (i + 1)), i + 2) else (v, i + 1)

/-- `Cell.mutate` (cell.js lines 2501-2602): clone the parent's traits,
set `generation = this.generation + 1`, then run the mutation branches in
source order, threading the `Math.random()` stream `rng` (each branch
consumes one draw for its roll and, when it fires, one more for the
perturbation or the uniform pick). -/
def mutate (c : Cell) (mutationRate : ℚ) (rng : ℕ → ℚ) : Traits :=
  let t := c.traits
  let r1 := mutNum 4 20 4 t.size mutationRate rng 0
  let r2 := mutNum (2 / 10) 3 (6 / 10) t.speed mutationRate rng r1.2.1
  let r3 := mutNum 40 160 20 t.maxHealth mutationRate rng r2.2.1
  let health := if r3.2.2 then r3.1 else t.health
  let r4 := mutNum 40 120 20 t.maxEnergy mutationRate rng r3.2.1
  let energy := if r4.2.2 then r4.1 * (8 / 10) else t.energy
  let r5 := mutCat shapes t.shape (mutationRate * (3 / 10)) rng r4.2.1
  let r6 := mutCat defenseTypes t.defenseType (mutationRate * (4 / 10)) rng r5.2
  let r7 := mutCat specialAbilities t.specialAbility (mutationRate * (3 / 10)) rng r6.2
  let r8 := mutCat metabolismTypes t.metabolismType (mutationRate * (2 / 10)) rng r7.2
  let r9 := mutCat socialBehaviors t.socialBehavior (mutationRate * (25 / 100)) rng r8.2
  let r10 := mutNum (1 / 10) (9 / 10) (2 / 10) t.temperatureTolerance mutationRate rng r9.2
  let r11 := mutNum (1 / 10) (9 / 10) (2 / 10) t.acidTolerance mutationRate rng r10.2.1
  let r12 := mutNum (5 / 100) (8 / 10) (15 / 100) t.radiationResistance mutationRate rng r11.2.1
  let r13 := mutNum 20 120 20 t.visionRange mutationRate rng r12.2.1
  let r14 := mutNum 15 100 15 t.communicationRange mutationRate rng r13.2.1
  let r15 := mutNum 0 (8 / 10) (2 / 10) t.pheromoneProduction mutationRate rng r14.2.1
  let r16 := mutNum 0 (9 / 10) (2 / 10) t.toxinResistance mutationRate rng r15.2.1
  let r17 := mutNum 0 (8 / 10) (15 / 100) t.magneticSensitivity mutationRate rng r16.2.1
  let r18 := mutNum 0 (6 / 10) (1 / 10) t.electrogenesis mutationRate rng r17.2.1
  { t with
    generation := c.generation + 1
    size := r1.1, speed := r2.1
    maxHealth := r3.1, health := health
    maxEnergy := r4.1, energy := energy
    shape := r5.1, defenseType := r6.1, specialAbility := r7.1
    metabolismType := r8.1, socialBehavior := r9.1
    temperatureTolerance := r10.1, acidTolerance := r11.1
    radiationResistance := r12.1
    visionRange := r13.1, communicationRange := r14.1
    pheromoneProduction := r15.1, toxinResistance := r16.1
    magneticSensitivity := r17.1, electrogenesis := r18.1 }

/-- One conditional adjustment of the reproduction cooldown/threshold
pair: when `b` holds, multiply the cooldown by `k` and lower the
threshold by `d` (the source statements `reproductionCooldown *= k;
energyThreshold -= d`). -/
def reproStep (b : Bool) (k d : ℚ) (p : ℚ × ℚ) : ℚ × ℚ :=
  if b then (p.1 * k, p.2 - d) else p

/-- Cooldown and energy threshold computed by `considerReproduction`
(cell.js lines 1606-1650), as the source-ordered chain of conditional
adjustments applied to the base `(400, 0.75)` (the two well-fed branches
overwrite both values outright, giving the three-way base case).
`colonyMemberCount` stands for `this.colony?.members.length` (`none`
when the cell has no colony). -/
def reproductionParams (c : Cell) (colonyMemberCount : Option ℕ) : ℚ × ℚ :=
  let energyRatio := c.traits.energy / c.traits.maxEnergy
  let healthRatio := c.traits.health / c.traits.maxHealth
  let base : ℚ × ℚ :=
    if energyRatio > 95 / 100 then (100, 85 / 100)
    else if energyRatio > 85 / 100 then (180, 8 / 10)
    else (400, 75 / 100)
  let inSmallColony : Bool :=
    match colonyMemberCount with
    | some n => decide (n < 15)
    | none => false
  reproStep (decide (c.traits.lifestage = "adult")) (7 / 10) 0
    (reproStep (decide (c.traits.lifestage = "elder")) (13 / 10) 0
      (reproStep (decide (c.traits.lifestage = "adult")) (6 / 10) 0
        (reproStep (decide (healthRatio > 9 / 10)) (7 / 10) 0
          (reproStep (decide (c.colonyRole = "sedentary")) (4 / 10) (1 / 10)
            (reproStep inSmallColony (6 / 10) (5 / 100) base)))))

/-- `considerReproduction` (cell.js lines 1601-1670): succeed when the
time since the last reproduction exceeds the computed cooldown, the
energy ratio exceeds the computed threshold, and the health ratio exceeds
0.5; on success set the `reproduced` flag, stamp `lastReproduction`, and
apply the multiplicative energy cost.  `handleRoleBasedReproduction` and
the particle effect are omitted: `createOffspring` returns `null` in the
source, so neither touches the eligibility state. -/
def considerReproduction (c : Cell) (colonyMemberCount : Option ℕ) :
    Cell × Bool :=
  let energyRatio := c.traits.energy / c.traits.maxEnergy
  let healthRatio := c.traits.health / c.traits.maxHealth
  let timeSince := c.age - c.lastReproduction
  let p := reproductionParams c colonyMemberCount
  if timeSince > p.1 ∧ energyRatio > p.2 ∧ healthRatio > 1 / 2 then
    let energyCost : ℚ := if energyRatio > 95 / 100 then 7 / 10 else 6 / 10
    ({ c with
        reproduced := true
        lastReproduction := c.age
        traits := { c.traits with energy := c.traits.energy * energyCost } },
      true)
  else (c, false)

/-- Photosynthesis case of `applySpecialAbilities` (cell.js lines
915-917): `this.traits.energy += 0.3 * (1 - this.opacity)`, with no clamp
against `maxEnergy`. -/
def applySpecialAbilitiesPhoto (c : Cell) : Cell :=
  { c with traits :=
      { c.traits with energy := c.traits.energy + (3 / 10) * (1 - c.opacity) } }

/-- `territorialBehavior` (cell.js lines 1017-1037): initialise the
territory on first use from the current position and
`defenseStates.territoryRadius`, then for every other cell inside the
territory set it as target and add the flat 0.2 health bonus — again with
no clamp against `maxHealth`. -/
def territorialStep (terr : ℚ × ℚ × ℚ) (c intruder : Cell) : Cell :=
  if intruder.id == c.id then c
  else if sqrtDistLt (intruder.x - terr.1) (intruder.y - terr.2.1)
      terr.2.2 then
    { c with
        target := some intruder.id
        traits := { c.traits with health := c.traits.health + 2 / 10 } }
  else c

def territorialBehavior (c : Cell) (cells : List Cell) : Cell :=
  let terr : ℚ × ℚ × ℚ :=
    match c.territory with
    | some t => t
    | none => (c.x, c.y, c.defenseStates.territoryRadius)
  let c := { c with territory := some terr }
  cells.foldl (territorialStep terr) c

/-- Number of cells counted as intruders by `territorialBehavior`, used to
state its exact health effect. -/
def intruderCount (c : Cell) (cells : List Cell) : ℕ :=
  let terr : ℚ × ℚ × ℚ :=
    match c.territory with
    | some t => t
    | none => (c.x, c.y, c.defenseStates.territoryRadius)
  (cells.filter (fun intruder =>
    !(intruder.id == c.id) &&
      sqrtDistLt (intruder.x - terr.1) (intruder.y - terr.2.1) terr.2.2)).length

/-- `canEat` (cell.js lines 1743-1748): the food is within reach when the
centre distance is below `radius + food.radius`. -/
def canEat (c : Cell) (f : CameraJS.Food) : Bool :=
  sqrtDistLt (f.x - c.x) (f.y - c.y) (c.radius + f.radius)

/-- `eat` (cell.js lines 1750-1758): on success mark the particle
consumed, add its energy value and clamp the total to `maxEnergy`. -/
def eat (c : Cell) (f : CameraJS.Food) : Cell × CameraJS.Food × Bool :=
  if canEat c f && !f.consumed then
    ({ c with traits :=
        { c.traits with
            energy := min (c.traits.energy + f.energyValue) c.traits.maxEnergy } },
      { f with consumed := true }, true)
  else (c, f, false)

/-- `collidesWith` (cell.js lines 1760-1765): circle overlap test on the
plain radii. -/
def collidesWith (c o : Cell) : Bool :=
  sqrtDistLt (o.x - c.x) (o.y - c.y) (c.radius + o.radius)

/-- Bond record stored in a colony's `bonds` map (cell.js line 99). -/
structure BondRec where
  cell1 : ℕ
  cell2 : ℕ
  strength : ℚ
  age : ℕ
  deriving Repr, DecidableEq, Inhabited

/-- Colony from `src/js/cell.js` (class `Colony`): member cells are held
by id, and the `bonds` map is an association list in insertion order.
The aggregate `structure`/`sharedResources` fields are not read by any
embedded operation and are omitted. -/
structure Colony where
  members : List ℕ
  bondsMap : List (String × BondRec)
  deriving Repr, DecidableEq, Inhabited

/-- Look a cell up in the store by id (object references become ids). -/
def findCell (store : List Cell) (id : ℕ) : Option Cell :=
  store.find? (fun c => c.id == id)

/-- Apply an update to the store entry with the given id. -/
def setCell (store : List Cell) (id : ℕ) (f : Cell → Cell) : List Cell :=
  store.map (fun c => if c.id == id then f c else c)

/-- Bond key (cell.js line 96):
`` `${Math.min(cell1.id, cell2.id)}_${Math.max(cell1.id, cell2.id)}` ``.
The ids are non-numeric strings of the form `cell_<timestamp>_<n>`
(cell.js line 209), so `Math.min`/`Math.max` coerce them to `NaN` and
every bond gets the same key `"NaN_NaN"`. -/
def bondKey (_id1 _id2 : ℕ) : String := "NaN_NaN"

/-- `Colony.createBond` (cell.js lines 92-106): refuse unless both cells
are members, both are below their bond caps, and the key is unused; then
record the bond and push each id into the other cell's `bonds` array and
`bondStrength` map.  The JS method receives the two cell objects; here
they are addressed by id through the store. -/
def Colony.createBond (col : Colony) (store : List Cell) (id1 id2 : ℕ) :
    Colony × List Cell × Bool :=
  match findCell store id1, findCell store id2 with
  | some c1, some c2 =>
    if !(col.members.contains id1 && col.members.contains id2) then
      (col, store, false)
    else if c1.bonds.length ≥ c1.maxBonds ∨ c2.bonds.length ≥ c2.maxBonds then
      (col, store, false)
    else if (col.bondsMap.find? (fun kv => kv.1 == bondKey id1 id2)).isSome then
      (col, store, false)
    else
      let col :=
        { col with bondsMap :=
            col.bondsMap ++ [(bondKey id1 id2, ⟨id1, id2, 1, 0⟩)] }
      let store := setCell store id1 (fun c =>
        { c with bonds := c.bonds ++ [id2],
                 bondStrength := c.bondStrength ++ [(id2, 1)] })
      let store := setCell store id2 (fun c =>
        { c with bonds := c.bonds ++ [id1],
                 bondStrength := c.bondStrength ++ [(id1, 1)] })
      (col, store, true)
  | _, _ => (col, store, false)

/-- `Colony.removeMember` (cell.js lines 71-90).  After splicing the
member out and clearing its colony reference, the source iterates the
bonds map and calls `bond.includes(cell.id)` — but the stored bonds are
plain objects, not arrays, so whenever the map is non-empty the first
iteration throws a `TypeError`, leaving the remaining statements
(`cell.bonds = []`, `updateStructure`) unexecuted.  When the map is
empty, the loop is a no-op and only the removed cell's own `bonds` array
is cleared: despite the source comment, other members' arrays are never
touched. -/
def Colony.removeMember (col : Colony) (store : List Cell) (id : ℕ) :
    Colony × List Cell × Except String Bool :=
  if !col.members.contains id then (col, store, .ok false)
  else
    let col := { col with members := col.members.erase id }
    let store := setCell store id (fun c => { c with colony := none })
    if col.bondsMap.isEmpty then
      let store := setCell store id (fun c => { c with bonds := [] })
      (col, store, .ok true)
    else
      (col, store, .error "TypeError: bond.includes is not a function")

/-- Weak-bond management segment of `updateColonyBehavior` (cell.js lines
1276-1303): each bond ages, its strength decays when the two members are
further apart than the role-dependent threshold (60 for two sedentary
cells, else 100) and strengthens (capped at 1) when they are closer than
30, and bonds whose strength drops to 0 or below are deleted together
with both cells' array entries and `bondStrength` entries.  Distance
comparisons use the squared form (`sqrtDistLt` rationale; thresholds are
nonnegative constants). -/
def updateBonds (col : Colony) (store : List Cell) : Colony × List Cell :=
  let step := fun (acc : List (String × BondRec) × List Cell)
      (kv : String × BondRec) =>
    let (done, store) := acc
    let bond := { kv.2 with age := kv.2.age + 1 }
    let c1? := if col.members.contains bond.cell1 then
        findCell store bond.cell1 else none
    let c2? := if col.members.contains bond.cell2 then
        findCell store bond.cell2 else none
    match c1?, c2? with
    | some c1, some c2 =>
      let maxDistance : ℚ :=
        if c1.colonyRole = "sedentary" ∧ c2.colonyRole = "sedentary" then 60
        else 100
      let d2 := (c1.x - c2.x) ^ 2 + (c1.y - c2.y) ^ 2
      let bond :=
        if d2 > maxDistance ^ 2 then
          { bond with strength := bond.strength - 15 / 1000 }
        else if d2 < 30 ^ 2 then
          { bond with strength := min 1 (bond.strength + 1 / 100) }
        else bond
      if bond.strength ≤ 0 then
        let store := setCell store bond.cell1 (fun c =>
          { c with bonds := c.bonds.filter (· != bond.cell2),
                   bondStrength := c.bondStrength.filter
                     (fun p => p.1 != bond.cell2) })
        let store := setCell store bond.cell2 (fun c =>
          { c with bonds := c.bonds.filter (· != bond.cell1),
                   bondStrength := c.bondStrength.filter
                     (fun p => p.1 != bond.cell1) })
        (done, store)
      else (done ++ [(kv.1, bond)], store)
    | _, _ => (done ++ [(kv.1, bond)], store)
  let r := col.bondsMap.foldl step ([], store)
  ({ col with bondsMap := r.1 }, r.2)

/-- Bond symmetry among a set of cells: whenever one cell's `bonds` array
lists another cell that is also in the set, the listed cell's array lists
it back. -/
def BondSymmetric (store : List Cell) : Prop :=
  ∀ a ∈ store, ∀ b ∈ store, a.id ∈ b.bonds → b.id ∈ a.bonds

end CellJS

namespace SimJS

/-- `Simulation.update` (simulation.js lines 121-137), parametric in the
state type and in `updateSingleStep` (`step`).  A non-positive
`simulationSpeed` returns immediately; otherwise `max(1, ⌊speed⌋)` whole
steps run, and the fractional remainder `speed % 1` triggers at most one
probabilistic extra whole step (`rand` is the `Math.random()` draw). -/
def simUpdate {σ : Type} (step : σ → σ) (speed rand : ℚ) (s : σ) : σ :=
  if speed ≤ 0 then s
  else
    let updates : ℕ := max 1 (⌊speed⌋.toNat)
    let fracPart : ℚ := speed - ⌊speed⌋
    let s := step^[updates] s
    if 0 < fracPart ∧ rand < fracPart then step s else s

/-- Mutable state threaded through one `updateSingleStep` call
(simulation.js lines 139-229): the cell array (updated in place via
indices), the recorded dead-cell indices, the offspring buffer, the food
manager, and — for the verification of the interaction schedule — the log
of `(initiator index, partner index)` pairs on which
`handleCellInteraction` was invoked. -/
structure PassState where
  cells : List CellJS.Cell
  dead : List ℕ
  newCells : List CellJS.Cell
  log : List (ℕ × ℕ)
  fm : CameraJS.FoodManager
  deriving Inhabited

/-- Food-consumption step for one live cell (simulation.js lines
169-174): `food.forEach(fp => cell.eat(fp))` over the food list in order,
threading the consumed flags. -/
def eatPhase (c : CellJS.Cell) (food : List CameraJS.Food) :
    CellJS.Cell × List CameraJS.Food :=
  food.foldl
    (fun acc f =>
      let r := CellJS.eat acc.1 f
      (r.1, acc.2 ++ [r.2.1]))
    (c, [])

/-- Pairwise-interaction step for one live cell at index `i`
(simulation.js lines 176-181): `this.cells.forEach(other => ...)` walks
every index `j` of the array — including cells already marked dead this
tick — and invokes the interaction whenever `j ≠ i` and the circles
overlap.  `interact` abstracts `handleCellInteraction`'s state effect
(simulation.js lines 692-732; it mutates health and energy and leaves
positions and radii untouched); every invocation is appended to the log. -/
def interactPair
    (interact : CellJS.Cell → CellJS.Cell → CellJS.Cell × CellJS.Cell)
    (i : ℕ) (st : PassState) (j : ℕ) : PassState :=
  if j == i then st
  else
    let ci := st.cells.getD i default
    let cj := st.cells.getD j default
    if CellJS.collidesWith ci cj then
      let p := interact ci cj
      { st with
          cells := (st.cells.set i p.1).set j p.2
          log := st.log ++ [(i, j)] }
    else st

def interactStep (interact : CellJS.Cell → CellJS.Cell → CellJS.Cell × CellJS.Cell)
    (i : ℕ) (st : PassState) : PassState :=
  (List.range st.cells.length).foldl (interactPair interact i) st

/-- Body of the per-cell `forEach` of `updateSingleStep` (simulation.js
lines 158-192) for index `i`.  `updateCell` abstracts `Cell.update`
(cell.js lines 484-527, returning the mutated cell and the liveness
flag); a cell reporting death or with non-positive health is recorded in
`deadCells` and skips eating, interactions and reproduction; otherwise it
eats, interacts with every colliding array entry, and — if flagged — calls
`reproduce` (abstracting cell.js `reproduce`), buffering the offspring
when the population cap allows. -/
def reproPhase (reproduce : CellJS.Cell → CellJS.Cell × Option CellJS.Cell)
    (maxCells : ℕ) (st : PassState) (i : ℕ) : PassState :=
  let ci := st.cells.getD i default
  if ci.reproduced then
    let r := reproduce ci
    let st := { st with cells := st.cells.set i r.1 }
    match r.2 with
    | some o =>
      if st.cells.length < maxCells then
        { st with newCells := st.newCells ++ [o] }
      else st
    | none => st
  else st

def passStep (updateCell : CellJS.Cell → CellJS.Cell × Bool)
    (interact : CellJS.Cell → CellJS.Cell → CellJS.Cell × CellJS.Cell)
    (reproduce : CellJS.Cell → CellJS.Cell × Option CellJS.Cell)
    (maxCells : ℕ) (st : PassState) (i : ℕ) : PassState :=
  let c := st.cells.getD i default
  let u := updateCell c
  let st := { st with cells := st.cells.set i u.1 }
  if !u.2 || decide (u.1.traits.health ≤ 0) then
    { st with dead := st.dead ++ [i] }
  else
    let e := eatPhase u.1 st.fm.food
    let st := { st with
        cells := st.cells.set i e.1
        fm := { st.fm with food := e.2 } }
    reproPhase reproduce maxCells (interactStep interact i st) i

/-- Dead-cell removal phase (simulation.js lines 194-198): walk the
recorded indices in reverse, spawn corpse food at each dead cell's
position via `FoodManager.spawnFromDeath`, and splice the cell out of the
array. -/
def removeStep (oracle : ℕ → CameraJS.SpawnOracle)
    (acc : PassState × ℕ) (idx : ℕ) : PassState × ℕ :=
  let (st, k) := acc
  let c := st.cells.getD idx default
  ({ st with
      fm := st.fm.spawnFromDeath c.x c.y c.traits.size (oracle k)
      cells := st.cells.eraseIdx idx }, k + 1)

def removePhase (oracle : ℕ → CameraJS.SpawnOracle) (st : PassState) :
    PassState :=
  (st.dead.reverse.foldl (removeStep oracle) (st, 0)).1

/-- Membership effect of `updateColonies` (simulation.js lines 264-288):
colonies whose member list is empty are spliced out; for the others only
the aggregate structure and the members' energies are recomputed
(`updateStructure`/`shareResources`), never the member list itself, and
the trailing colony-discovery loop only appends whole colonies.  Nothing
in the tick removes a dead cell's id from its colony's member list. -/
def updateColonies (colonies : List CellJS.Colony) : List CellJS.Colony :=
  colonies.filter (fun col => !col.members.isEmpty)

/-- Container effects of `updateSingleStep` (simulation.js lines
139-229): advance the food manager, run the per-cell pass over the
starting indices, remove the recorded dead cells (spawning corpse food),
append the offspring buffer, and apply the colony membership phase.  The
virus, poison, extinction-respawn and statistics phases are omitted: none
of them re-adds a removed cell or touches colony member lists. -/
def updateSingleStep (updateCell : CellJS.Cell → CellJS.Cell × Bool)
    (interact : CellJS.Cell → CellJS.Cell → CellJS.Cell × CellJS.Cell)
    (reproduce : CellJS.Cell → CellJS.Cell × Option CellJS.Cell)
    (maxCells : ℕ) (o : CameraJS.SpawnOracle)
    (oracle : ℕ → CameraJS.SpawnOracle)
    (cells : List CellJS.Cell) (colonies : List CellJS.Colony)
    (fm : CameraJS.FoodManager) : PassState × List CellJS.Colony :=
  let fm := fm.update o
  let st : PassState := ⟨cells, [], [], [], fm⟩
  let st := (List.range cells.length).foldl
    (passStep updateCell interact reproduce maxCells) st
  let st := removePhase oracle st
  let st := { st with cells := st.cells ++ st.newCells }
  (st, updateColonies colonies)

end SimJS

namespace P0

/-- Cell state as read and written by the interaction resolver of
`src/unnamed/part_000`.  `aggression`, `socialIntelligence` and
`altruism` are not initialised by the constructor, so they are optional
and read through the `||`-default (`jsOr`). -/
structure Cell where
  id : ℕ
  x : ℚ
  y : ℚ
  radius : ℚ
  size : ℚ
  health : ℚ
  maxHealth : ℚ
  energy : ℚ
  maxEnergy : ℚ
  aggression : Option ℚ
  socialIntelligence : Option ℚ
  altruism : Option ℚ
  toxinResistance : ℚ
  growthPoints : ℚ
  defenseType : String
  specialAbility : String
  packMembersCount : ℕ
  reproduced : Bool
  lastFoodTime : ℤ
  deriving Repr, DecidableEq, Inhabited

/-- `collidesWith` as used by the interaction pass of part_000 (circle
overlap on the radii, squared form as in `sqrtDistLt`). -/
def collidesWith (c o : Cell) : Bool :=
  sqrtDistLt (o.x - c.x) (o.y - c.y) (c.radius + o.radius)

/-- `canPredate` (part_000 lines 2104-2126), in source order: size at
least doubled, health at least 1.2×, aggression (defaulted to 0.3) at
least 0.4, energy at least 60% of max, and no defense-type immunity
(explosive prey never, poison prey only with toxin resistance ≥ 0.7).
The parasite / pack-hunter shortcuts return `true` after all
disqualifying checks and therefore do not change the result. -/
def canPredate (p q : Cell) : Bool :=
  if p.size < q.size * 2 then false
  else if p.health < q.health * (12 / 10) then false
  else if jsOr p.aggression (3 / 10) < 4 / 10 then false
  else if p.energy < p.maxEnergy * (6 / 10) then false
  else if q.defenseType == "explosive" then false
  else if q.defenseType == "poison" && decide (p.toxinResistance < 7 / 10) then
    false
  else if p.specialAbility == "parasite" then true
  else if p.specialAbility == "pack_hunter" && decide (0 < p.packMembersCount)
    then true
  else true

/-- `handlePredation` (part_000 lines 2129-2172): the predator absorbs
`min(0.8 × prey maxEnergy, headroom)` energy and
`min(0.3 × prey maxHealth, headroom)` health, the prey's health is set to
0, and — when `predationReproduction` is enabled — a probabilistic roll
may flag the predator to reproduce.  `roll` abstracts
`Math.random() < reproductionChance / Math.sqrt(populationPressure)`
(both sides constants of the call; the square root forces the oracle).
Particle effects are omitted. -/
def handlePredation (pred prey : Cell) (tick : ℤ)
    (predationReproduction roll : Bool) : Cell × Cell :=
  let energyGain := min (prey.maxEnergy * (8 / 10)) (pred.maxEnergy - pred.energy)
  let healthGain := min (prey.maxHealth * (3 / 10)) (pred.maxHealth - pred.health)
  let pred := { pred with
      energy := pred.energy + energyGain
      health := pred.health + healthGain }
  let prey := { prey with health := 0 }
  let pred :=
    if predationReproduction && roll then
      { pred with reproduced := true, lastFoodTime := tick }
    else pred
  (pred, prey)

/-- `attemptCooperation` (part_000 lines 2034-2080): the cooperation
chance averages the two cells' social intelligence (default 0.5) and
altruism (default 0.4); on `rand < chance * 0.6` energy is partially
equalised, the injured party may receive a small heal, and both gain
growth credit.  Returns `none` when no cooperation occurred. -/
def attemptCooperation (c1 c2 : Cell) (rand : ℚ) : Option (Cell × Cell) :=
  let social1 := jsOr c1.socialIntelligence (5 / 10)
  let social2 := jsOr c2.socialIntelligence (5 / 10)
  let altruism1 := jsOr c1.altruism (4 / 10)
  let altruism2 := jsOr c2.altruism (4 / 10)
  let cooperationChance := (social1 + social2 + altruism1 + altruism2) / 4
  if rand < cooperationChance * (6 / 10) then
    let shareAmount := min 5 (|c1.energy - c2.energy| * (1 / 10))
    let p :=
      if c1.energy > c2.energy then
        ({ c1 with energy := c1.energy - shareAmount },
         { c2 with energy := c2.energy + shareAmount })
      else
        ({ c1 with energy := c1.energy + shareAmount },
         { c2 with energy := c2.energy - shareAmount })
    let (c1, c2) := p
    let p :=
      if c1.health < c1.maxHealth * (7 / 10) ∧
          c2.health > c2.maxHealth * (8 / 10) then
        let healAmount := min 3 (c2.energy * (2 / 100))
        ({ c1 with health := c1.health + healAmount },
         { c2 with energy := c2.energy - healAmount * (1 / 2) })
      else if c2.health < c2.maxHealth * (7 / 10) ∧
          c1.health > c1.maxHealth * (8 / 10) then
        let healAmount := min 3 (c1.energy * (2 / 100))
        ({ c1 with energy := c1.energy - healAmount * (1 / 2) },
         { c2 with health := c2.health + healAmount })
      else (c1, c2)
    let (c1, c2) := p
    some ({ c1 with growthPoints := c1.growthPoints + 1 / 2 },
          { c2 with growthPoints := c2.growthPoints + 1 / 2 })
  else none

/-- Outcome tag of one `handleCellInteraction` call. -/
inductive Outcome where
  | noContact
  | cooperation
  | predation12
  | predation21
  | combat
  deriving Repr, DecidableEq

/-- `handleCellInteraction` (part_000 lines 1981-2031): no effect without
collision; cooperation is attempted first and skips combat; otherwise
predation runs in either direction when `canPredate` allows it; only when
all of these decline does reduced-intensity combat run.  `calcDef`
abstracts `calculateDefenseInteraction` (part_000 lines 1148-1212) and
`specialFx` abstracts `handleSpecialCombatEffects` (lines 1214 ff.); the
dead `damage1 *= aggression1` lines multiply a variable that is
immediately overwritten and have no effect. -/
def handleCellInteraction (calcDef : Cell → Cell → ℚ → ℚ)
    (specialFx : Cell → Cell → Cell × Cell) (c1 c2 : Cell)
    (coopRand : ℚ) (tick : ℤ) (predationReproduction roll : Bool) :
    Outcome × Cell × Cell :=
  if !collidesWith c1 c2 then (.noContact, c1, c2)
  else
    match attemptCooperation c1 c2 coopRand with
    | some p => (.cooperation, p.1, p.2)
    | none =>
      if canPredate c1 c2 then
        let p := handlePredation c1 c2 tick predationReproduction roll
        (.predation12, p.1, p.2)
      else if canPredate c2 c1 then
        let p := handlePredation c2 c1 tick predationReproduction roll
        (.predation21, p.2, p.1)
      else
        let baseDamage1 := c1.size * (5 / 100)
        let baseDamage2 := c2.size * (5 / 100)
        let damage1 := calcDef c1 c2 baseDamage1 * (1 / 2)
        let damage2 := calcDef c2 c1 baseDamage2 * (1 / 2)
        let c1 := { c1 with
            health := c1.health - damage2
            energy := c1.energy - min 1 (c1.energy * (1 / 100)) }
        let c2 := { c2 with
            health := c2.health - damage1
            energy := c2.energy - min 1 (c2.energy * (1 / 100)) }
        let p := specialFx c1 c2
        (.combat, p.1, p.2)

/-- Inputs of `applyNaturalSelection` (part_000 lines 2648-2768) that the
removal count depends on: population and food counts, the population
settings, the environmental pressures, the virus count, and the number of
unprotected cells (the protection sets of lines 2710-2726 are abstracted
to this count). -/
structure NSInput where
  pop : ℕ
  food : ℕ
  minPopulation : ℕ
  maxPopulation : ℕ
  toxicity : ℚ
  radiation : ℚ
  virusCount : ℕ
  unprotectedCount : ℕ
  deriving Repr, Inhabited

/-- Scarcity threshold (part_000 lines 2658-2662): relaxed for small
populations. -/
def scarcityThreshold (pop : ℕ) : ℚ :=
  if pop < 100 then max (8 / 10) (15 / 10 - ((100 : ℚ) - pop) * (7 / 1000))
  else 15 / 10

/-- Resource-scarcity test (part_000 lines 2655-2664).  With zero cells
the JS division yields `Infinity` or `NaN`, whose comparison with the
threshold is `false`, hence the explicit zero case. -/
def resourceScarcity (pop food : ℕ) : Bool :=
  if pop == 0 then false
  else decide ((food : ℚ) / pop < scarcityThreshold pop)

/-- Overpopulation test against the carrying capacity
`maxPopulation * 0.85` (part_000 lines 2650, 2665). -/
def overpopulation (inp : NSInput) : Bool :=
  decide ((inp.pop : ℚ) > (inp.maxPopulation : ℚ) * (85 / 100))

/-- Removal rate (part_000 lines 2677-2699): base 5%, damped for small
populations, scaled and capped by the crisis kind, then increased by
environmental pressure and disease. -/
def removalRate (inp : NSInput) (scarcity overpop : Bool) : ℚ :=
  let rate : ℚ := 5 / 100
  let rate :=
    if inp.pop < 80 then rate * (4 / 10)
    else if inp.pop < 150 then rate * (7 / 10)
    else rate
  let rate :=
    if scarcity && overpop then min (rate * 3) (12 / 100)
    else if scarcity then min (rate * (16 / 10)) (8 / 100)
    else if overpop then min (rate * (12 / 10)) (6 / 100)
    else rate
  let rate := if inp.toxicity > 6 / 10 then rate + 3 / 100 else rate
  let rate := if inp.radiation > 4 / 10 then rate + 2 / 100 else rate
  if inp.virusCount > 10 then rate + 4 / 100 else rate

/-- Removal bound (part_000 lines 2701-2704):
`Math.min(Math.floor(currentCells * removalRate), currentCells - minPopulation)`,
kept as an integer because the second operand can be negative (in which
case the JS `for` loop guard `i < cellsToRemove` never passes). -/
def cellsToRemove (inp : NSInput) (rate : ℚ) : ℤ :=
  min ⌊(inp.pop : ℚ) * rate⌋ ((inp.pop : ℤ) - inp.minPopulation)

/-- Size of the removal-candidate pool (part_000 lines 2728-2729):
the unprotected cells are sliced to the bottom `⌊0.4 × pop⌋`; when that
floor is 0, `slice(-0)` returns the whole filtered array. -/
def candidateCount (inp : NSInput) : ℕ :=
  let k := (⌊(inp.pop : ℚ) * (4 / 10)⌋).toNat
  if k == 0 then inp.unprotectedCount else min k inp.unprotectedCount

/-- Weighted-removal loop (part_000 lines 2731-2749).  Each iteration of
the outer `for` draws `randomValue < totalWeight` and subtracts the
(strictly positive, ≥ 0.1) weights until it crosses zero, which always
happens, so exactly one candidate is removed per iteration while any
remain; the choice itself is abstracted into the `pick` oracle (taken
modulo the current pool size). -/
def selectionLoop (pick : ℕ → ℕ) : ℕ → List ℕ → List ℕ → List ℕ
  | 0, _, removed => removed
  | k + 1, cands, removed =>
    if cands.isEmpty then removed
    else
      let j := pick removed.length % cands.length
      selectionLoop pick k (cands.eraseIdx j) (removed ++ [cands.getD j 0])

/-- `applyNaturalSelection` (part_000 lines 2648-2768) at the population
level: selection runs only under resource scarcity or overpopulation;
the removal loop erases at most `cellsToRemove` candidates (each found in
`this.cells` and spliced out, converting to food), so the returned
population is the starting one minus the removed count.  `candidateIds`
is the bottom-40% unprotected pool (composition abstracted, see
`candidateCount`). -/
def applyNaturalSelection (inp : NSInput) (pick : ℕ → ℕ)
    (candidateIds : List ℕ) : ℕ × List ℕ :=
  let scarcity := resourceScarcity inp.pop inp.food
  let overpop := overpopulation inp
  if scarcity || overpop then
    let rate := removalRate inp scarcity overpop
    let k := (cellsToRemove inp rate).toNat
    let removed := selectionLoop pick k candidateIds []
    (inp.pop - removed.length, removed)
  else (inp.pop, [])

end P0

/-! Concrete states used to instantiate the theorems below. -/

/-- Photosynthetic cell sitting exactly at its energy cap, with reduced
opacity (as produced by, e.g., the burrowing or camouflage code paths). -/
def photoCell : CellJS.Cell :=
  { (default : CellJS.Cell) with
      opacity := 1 / 2
      traits := { (default : CellJS.Traits) with
        specialAbility := "photosynthesis", energy := 80, maxEnergy := 80 } }

/-- Cell eligible to reproduce: well past its cooldown, full energy and
health. -/
def fertileCell : CellJS.Cell :=
  { (default : CellJS.Cell) with
      age := 1000
      lastReproduction := 0
      colonyRole := "adventurer"
      traits := { (default : CellJS.Traits) with
        energy := 100, maxEnergy := 100, health := 100, maxHealth := 100,
        lifestage := "juvenile" } }

/-- Member `A` of a two-cell colony, bonded to `B`. -/
def bondedA : CellJS.Cell :=
  { (default : CellJS.Cell) with
    id := 1, maxBonds := 4, bonds := [2], colony := some 1 }

/-- Member `B` of a two-cell colony, bonded to `A`. -/
def bondedB : CellJS.Cell :=
  { (default : CellJS.Cell) with
    id := 2, maxBonds := 4, bonds := [1], colony := some 1 }

/-- Two-member colony whose bonds map holds the (single possible)
recorded bond under the degenerate `"NaN_NaN"` key. -/
def bondedColony : CellJS.Colony :=
  { members := [1, 2], bondsMap := [("NaN_NaN", ⟨1, 2, 1, 0⟩)] }

/-- Two-member colony whose bonds map is empty while the members' own
`bonds` arrays still reference each other. -/
def emptyMapColony : CellJS.Colony :=
  { members := [1, 2], bondsMap := [] }

/-- Concrete stand-in for `Cell.update`: state unchanged, liveness
reported exactly when energy is positive (the death test of cell.js line
504 for a cell whose tick effects cancel out). -/
def updEnergyAlive : CellJS.Cell → CellJS.Cell × Bool :=
  fun c => (c, decide (0 < c.traits.energy))

/-- Concrete stand-in for `handleCellInteraction`'s state effect: a
zero-damage encounter (both cells unchanged). -/
def interactId : CellJS.Cell → CellJS.Cell → CellJS.Cell × CellJS.Cell :=
  fun a b => (a, b)

/-- Concrete stand-in for `Cell.reproduce`: no offspring. -/
def reproNone : CellJS.Cell → CellJS.Cell × Option CellJS.Cell :=
  fun c => (c, none)

/-- Spawn oracle with every draw equal to 0. -/
def oracle0 : CameraJS.SpawnOracle :=
  ⟨fun _ => 0, fun _ => 0, fun _ => 0, fun _ => 0, fun _ => 0, fun _ => 0⟩

/-- Dying colony cell for the death-tick scenario: energy exhausted. -/
def dyingMember : CellJS.Cell :=
  { (default : CellJS.Cell) with
    id := 1, x := 0, y := 0, radius := 5,
    traits := { (default : CellJS.Traits) with
      energy := 0, health := 5, size := 8 } }

/-- Surviving colony cell, far from the dying one, still listing it in
its `bonds` array. -/
def survivingMember : CellJS.Cell :=
  { (default : CellJS.Cell) with
    id := 2, x := 100, y := 0, radius := 5,
    bonds := [1], colony := some 1,
    traits := { (default : CellJS.Traits) with
      energy := 10, health := 10, size := 8 } }

/-- Food manager whose spawn cooldown keeps it from spawning this tick. -/
def quietFm : CameraJS.FoodManager :=
  { width := 800, height := 600, food := [], maxFood := 0,
    spawnRate := 1, spawnCooldown := 5 }

/-- Dying cell overlapping a survivor, for the interaction-schedule
scenario. -/
def deadOverlap : CellJS.Cell :=
  { (default : CellJS.Cell) with
    id := 1, x := 0, y := 0, radius := 5,
    traits := { (default : CellJS.Traits) with
      energy := 0, health := 5, size := 8 } }

/-- Live cell overlapping the dying one. -/
def liveOverlap : CellJS.Cell :=
  { (default : CellJS.Cell) with
    id := 2, x := 1, y := 0, radius := 5,
    traits := { (default : CellJS.Traits) with
      energy := 10, health := 10, size := 8 } }

/-- Predator satisfying every `canPredate` requirement against
`preyCell`. -/
def predatorCell : P0.Cell :=
  { (default : P0.Cell) with
    id := 1, x := 0, y := 0, radius := 10,
    size := 20, health := 100, maxHealth := 100, energy := 80,
    maxEnergy := 100, aggression := some (1 / 2), defenseType := "spikes",
    specialAbility := "none" }

/-- Small, weak prey overlapping the predator. -/
def preyCell : P0.Cell :=
  { (default : P0.Cell) with
    id := 2, x := 1, y := 0, radius := 5,
    size := 5, health := 10, maxHealth := 40, energy := 20, maxEnergy := 40,
    defenseType := "spikes", specialAbility := "none" }

/-- Concrete stand-in for `calculateDefenseInteraction`: damage passes
through unmodified. -/
def calcDefId : P0.Cell → P0.Cell → ℚ → ℚ := fun _ _ d => d

/-- Concrete stand-in for `handleSpecialCombatEffects`: no side effect. -/
def fxId : P0.Cell → P0.Cell → P0.Cell × P0.Cell := fun a b => (a, b)

/-- Natural-selection input in a scarcity-and-overpopulation crisis with
population above the configured minimum. -/
def crisisInput : P0.NSInput :=
  { pop := 100, food := 0, minPopulation := 75, maxPopulation := 10,
    toxicity := 0, radiation := 0, virusCount := 0, unprotectedCount := 40 }

/-- Membership of a value in a closed interval, used to state the trait
bands. -/
def inBand (lo x hi : ℚ) : Prop := lo ≤ x ∧ x ≤ hi

/-! Helper lemmas. -/

theorem mutNum_bounds {lo hi span v rate : ℚ} {rng : ℕ → ℚ} {i : ℕ}
    (hr : rng i < rate) (hlh : lo ≤ hi) :
    lo ≤ (CellJS.mutNum lo hi span v rate rng i).1 ∧
      (CellJS.mutNum lo hi span v rate rng i).1 ≤ hi := by
  rw [CellJS.mutNum, if_pos hr]
  exact ⟨le_max_left _ _, max_le hlh (min_le_left _ _)⟩

/-! Theorems for the claims. -/

/-- C7: for every parent cell and every `Math.random()` stream (whose
draws are below 1, as JS guarantees), `Cell.mutate` at
`mutationRate = 1.0` fires every numeric branch and the clamps put each
listed numeric trait into its documented band, while the returned trait
vector carries `generation = parent.generation + 1`. -/
theorem C7_mutation_bounds (c : CellJS.Cell) (rng : ℕ → ℚ)
    (h : ∀ n, rng n < 1) :
    inBand 4 (CellJS.mutate c 1 rng).size 20 ∧
    inBand (2 / 10) (CellJS.mutate c 1 rng).speed 3 ∧
    inBand 40 (CellJS.mutate c 1 rng).maxHealth 160 ∧
    inBand 40 (CellJS.mutate c 1 rng).maxEnergy 120 ∧
    inBand (1 / 10) (CellJS.mutate c 1 rng).temperatureTolerance (9 / 10) ∧
    inBand (1 / 10) (CellJS.mutate c 1 rng).acidTolerance (9 / 10) ∧
    inBand (5 / 100) (CellJS.mutate c 1 rng).radiationResistance (8 / 10) ∧
    inBand 20 (CellJS.mutate c 1 rng).visionRange 120 ∧
    inBand 15 (CellJS.mutate c 1 rng).communicationRange 100 ∧
    inBand 0 (CellJS.mutate c 1 rng).pheromoneProduction (8 / 10) ∧
    inBand 0 (CellJS.mutate c 1 rng).toxinResistance (9 / 10) ∧
    (CellJS.mutate c 1 rng).generation = c.generation + 1 := by
  simp only [CellJS.mutate, inBand]
  refine ⟨?_, ?_, ?_, ?_, ?_, ?_, ?_, ?_, ?_, ?_, ?_, trivial⟩ <;>
    exact mutNum_bounds (h _) (by norm_num)

/-- C7 witness: the bounds evaluated at the default cell and the all-zero
stream. -/
theorem C7_witness :
    inBand 4 (CellJS.mutate default 1 (fun _ => 0)).size 20 ∧
    (CellJS.mutate default 1 (fun _ => 0)).generation =
      (default : CellJS.Cell).generation + 1 :=
  ⟨(C7_mutation_bounds default (fun _ => 0) (fun _ => by norm_num)).1,
   (C7_mutation_bounds default (fun _ => 0)
     (fun _ => by norm_num)).2.2.2.2.2.2.2.2.2.2.2⟩

/-- C9: a `Food` particle constructed with an explicit (truthy) size has
`energyValue = radius × 8` (so radius 6 gives 48 at the witness), and
`Food.update` reports the particle live exactly when it is unconsumed and
its incremented age is still within `maxAge`. -/
theorem C9_food_energy_and_expiry :
    (∀ x y s rS rA : ℚ, s ≠ 0 →
      (CameraJS.Food.create x y (some s) rS rA).energyValue = s * 8) ∧
    (∀ f : CameraJS.Food,
      (CameraJS.Food.update f).1 = true ↔
        (f.consumed = false ∧ ((f.age : ℚ) + 1 ≤ f.maxAge))) := by
  constructor
  · intro x y s rS rA hs
    simp [CameraJS.Food.create, hs]
  · intro f
    by_cases hc : f.consumed
    · simp [CameraJS.Food.update, hc]
    · simp only [CameraJS.Food.update, if_neg hc, apply_ite Prod.fst]
      push_cast
      split_ifs with hage
      · simp only [Bool.false_eq_true, false_iff, not_and]
        exact fun _ hle => absurd hle (not_le.mpr hage)
      · exact iff_of_true rfl ⟨by simpa using hc, not_lt.mp hage⟩

/-- C9 witness: the particle of radius 6 has energy value 48 and is
reported live on its first update. -/
theorem C9_witness :
    (CameraJS.Food.create 0 0 (some 6) 0 0).energyValue = 6 * 8 ∧
    (CameraJS.Food.update (CameraJS.Food.create 0 0 (some 6) 0 0)).1 = true :=
  ⟨C9_food_energy_and_expiry.1 0 0 6 0 0 (by norm_num),
   (C9_food_energy_and_expiry.2 _).2 ⟨rfl, by norm_num [CameraJS.Food.create]⟩⟩

/-- C10: with `simulationSpeed ≤ 0` the frame update leaves the state
untouched, and with positive speed it applies exactly
`max(1, ⌊speed⌋)` whole `updateSingleStep` calls, plus at most one
probabilistic extra whole call. -/
theorem C10_speed_dispatch {σ : Type} (step : σ → σ) (speed rand : ℚ)
    (s : σ) :
    (speed ≤ 0 → SimJS.simUpdate step speed rand s = s) ∧
    (0 < speed →
      SimJS.simUpdate step speed rand s = step^[max 1 ⌊speed⌋.toNat] s ∨
      SimJS.simUpdate step speed rand s = step^[max 1 ⌊speed⌋.toNat + 1] s) := by
  constructor
  · intro h
    simp [SimJS.simUpdate, h]
  · intro h
    simp only [SimJS.simUpdate, if_neg (not_le.mpr h)]
    split_ifs with h2
    · exact Or.inr (Function.iterate_succ_apply' step _ s).symm
    · exact Or.inl rfl

/-- C10 witness: at speed 2.5 with draw 0 the extra probabilistic step
fires, still a whole number of steps. -/
theorem C10_witness :
    (0 : ℚ) < 5 / 2 ∧
    (SimJS.simUpdate Nat.succ (5 / 2) 0 (0 : ℕ) =
        Nat.succ^[max 1 (⌊(5 / 2 : ℚ)⌋.toNat)] 0 ∨
      SimJS.simUpdate Nat.succ (5 / 2) 0 (0 : ℕ) =
        Nat.succ^[max 1 (⌊(5 / 2 : ℚ)⌋.toNat) + 1] 0) :=
  ⟨by norm_num, (C10_speed_dispatch Nat.succ (5 / 2) 0 0).2 (by norm_num)⟩

theorem reproStep_pos {b : Bool} {k d : ℚ} {p : ℚ × ℚ} (hk : 0 < k)
    (hp : 0 < p.1) : 0 < (CellJS.reproStep b k d p).1 := by
  cases b
  · simpa [CellJS.reproStep] using hp
  · simpa [CellJS.reproStep] using mul_pos hp hk

theorem reproductionParams_pos (c : CellJS.Cell) (m : Option ℕ) :
    0 < (CellJS.reproductionParams c m).1 := by
  simp only [CellJS.reproductionParams]
  apply reproStep_pos (by norm_num)
  apply reproStep_pos (by norm_num)
  apply reproStep_pos (by norm_num)
  apply reproStep_pos (by norm_num)
  apply reproStep_pos (by norm_num)
  apply reproStep_pos (by norm_num)
  split_ifs <;> norm_num

theorem considerReproduction_stamp (c : CellJS.Cell) (m : Option ℕ)
    (hs : (CellJS.considerReproduction c m).2 = true) :
    (CellJS.considerReproduction c m).1.age = c.age ∧
    (CellJS.considerReproduction c m).1.lastReproduction = c.age := by
  by_cases h : (c.age - c.lastReproduction > (CellJS.reproductionParams c m).1 ∧
      c.traits.energy / c.traits.maxEnergy > (CellJS.reproductionParams c m).2 ∧
      c.traits.health / c.traits.maxHealth > 1 / 2)
  · simp only [CellJS.considerReproduction]
    rw [if_pos h]
    exact ⟨rfl, rfl⟩
  · exfalso
    simp only [CellJS.considerReproduction] at hs
    rw [if_neg h] at hs
    exact absurd hs (by simp)

theorem considerReproduction_blocked (c : CellJS.Cell) (m : Option ℕ)
    (h : c.age - c.lastReproduction ≤ (CellJS.reproductionParams c m).1) :
    (CellJS.considerReproduction c m).2 = false := by
  simp only [CellJS.considerReproduction]
  split_ifs with hcond
  · exact absurd hcond.1 (not_lt.mpr h)
  · rfl

/-- C6: reproduction is idempotent per eligibility check — once
`considerReproduction` succeeds (stamping `lastReproduction := age`), an
immediate re-invocation in the same tick fails (the cooldown is always
positive), and more generally any invocation whose elapsed time since the
stamped reproduction is within the computed cooldown fails, no matter how
often it is repeated. -/
theorem C6_reproduction_idempotent (c : CellJS.Cell) (m : Option ℕ)
    (hs : (CellJS.considerReproduction c m).2 = true) :
    (∀ m2, (CellJS.considerReproduction
      (CellJS.considerReproduction c m).1 m2).2 = false) ∧
    (∀ (c2 : CellJS.Cell) (m2 : Option ℕ),
      c2.age - c2.lastReproduction ≤ (CellJS.reproductionParams c2 m2).1 →
      (CellJS.considerReproduction c2 m2).2 = false) := by
  constructor
  · intro m2
    apply considerReproduction_blocked
    have hst := considerReproduction_stamp c m hs
    have hzero : (CellJS.considerReproduction c m).1.age -
        (CellJS.considerReproduction c m).1.lastReproduction = 0 := by
      rw [hst.1, hst.2, sub_self]
    rw [hzero]
    exact le_of_lt (reproductionParams_pos _ _)
  · intro c2 m2 h
    exact considerReproduction_blocked c2 m2 h

/-- C6 witness: a concrete well-fed cell succeeds once and the immediate
repeat in the same tick fails. -/
theorem C6_witness :
    (CellJS.considerReproduction fertileCell none).2 = true ∧
    (CellJS.considerReproduction
      (CellJS.considerReproduction fertileCell none).1 none).2 = false := by
  have hs : (CellJS.considerReproduction fertileCell none).2 = true := by
    simp [CellJS.considerReproduction, CellJS.reproductionParams,
      CellJS.reproStep, fertileCell]
    norm_num
  exact ⟨hs, (C6_reproduction_idempotent fertileCell none hs).1 none⟩

theorem selectionLoop_length (pick : ℕ → ℕ) :
    ∀ (k : ℕ) (cands removed : List ℕ),
      (P0.selectionLoop pick k cands removed).length =
        removed.length + min k cands.length := by
  intro k
  induction k with
  | zero => intro cands removed; simp [P0.selectionLoop]
  | succ k ih =>
    intro cands removed
    rw [P0.selectionLoop]
    by_cases hc : cands.isEmpty
    · rw [if_pos hc]
      have : cands.length = 0 := by simpa [List.isEmpty_iff_length_eq_zero] using hc
      omega
    · rw [if_neg hc, ih]
      have h0 : 0 < cands.length := by
        rcases cands with _ | ⟨a, l⟩
        · simp at hc
        · simp
      have hj : pick removed.length % cands.length < cands.length :=
        Nat.mod_lt _ h0
      have hlen : (cands.eraseIdx (pick removed.length % cands.length)).length
          = cands.length - 1 := List.length_eraseIdx_of_lt hj
      simp only [List.length_append, List.length_singleton, hlen]
      omega

/-- C4: `applyNaturalSelection` never reduces the population below the
configured minimum — with population at or above `minPopulation` the
post-call population is still at or above it, and with population below
`minPopulation` the call removes no cells (the removal bound
`currentCells - minPopulation` is negative, so the loop never runs). -/
theorem C4_natural_selection (inp : P0.NSInput) (pick : ℕ → ℕ)
    (candidateIds : List ℕ) :
    (inp.minPopulation ≤ inp.pop →
      inp.minPopulation ≤ (P0.applyNaturalSelection inp pick candidateIds).1) ∧
    (inp.pop < inp.minPopulation →
      (P0.applyNaturalSelection inp pick candidateIds).2 = []) := by
  constructor
  · intro h
    simp only [P0.applyNaturalSelection]
    split_ifs with hcrisis
    · have hlen := selectionLoop_length pick
        ((P0.cellsToRemove inp (P0.removalRate inp
          (P0.resourceScarcity inp.pop inp.food) (P0.overpopulation inp))).toNat)
        candidateIds []
      have hmin : P0.cellsToRemove inp (P0.removalRate inp
          (P0.resourceScarcity inp.pop inp.food) (P0.overpopulation inp)) ≤
          (inp.pop : ℤ) - inp.minPopulation := min_le_right _ _
      simp only [List.length_nil, Nat.zero_add] at hlen
      simp only [hlen]
      omega
    · simpa using h
  · intro h
    simp only [P0.applyNaturalSelection]
    split_ifs with hcrisis
    · have hmin : P0.cellsToRemove inp (P0.removalRate inp
          (P0.resourceScarcity inp.pop inp.food) (P0.overpopulation inp)) ≤
          (inp.pop : ℤ) - inp.minPopulation := min_le_right _ _
      have hz : (P0.cellsToRemove inp (P0.removalRate inp
          (P0.resourceScarcity inp.pop inp.food) (P0.overpopulation inp))).toNat
          = 0 := by omega
      simp [hz, P0.selectionLoop]
    · rfl

/-- C4 witness: a concrete scarcity-and-overcrowding crisis at population
100 with minimum 75 stays at or above 75. -/
theorem C4_witness :
    crisisInput.minPopulation ≤ crisisInput.pop ∧
    crisisInput.minPopulation ≤
      (P0.applyNaturalSelection crisisInput (fun _ => 0) (List.range 40)).1 :=
  ⟨by norm_num [crisisInput],
   (C4_natural_selection crisisInput (fun _ => 0) (List.range 40)).1
     (by norm_num [crisisInput])⟩

/-- C5: predation fires only under `canPredate`; `canPredate` holds
exactly when the predator doubles the prey's size, has 1.2× its health,
aggression (defaulted) at least 0.4, energy at least 60% of its own
maximum, and the prey's defense type grants no immunity; and
`handlePredation` zeroes the prey's health while capping the predator's
energy and health gains at its own maxima. -/
theorem C5_predation :
    (∀ (calcDef : P0.Cell → P0.Cell → ℚ → ℚ)
        (specialFx : P0.Cell → P0.Cell → P0.Cell × P0.Cell)
        (c1 c2 : P0.Cell) (coopRand : ℚ) (tick : ℤ) (pr roll : Bool),
      ((P0.handleCellInteraction calcDef specialFx c1 c2 coopRand tick pr
          roll).1 = P0.Outcome.predation12 → P0.canPredate c1 c2 = true) ∧
      ((P0.handleCellInteraction calcDef specialFx c1 c2 coopRand tick pr
          roll).1 = P0.Outcome.predation21 → P0.canPredate c2 c1 = true)) ∧
    (∀ p q : P0.Cell, P0.canPredate p q = true ↔
      (q.size * 2 ≤ p.size ∧ q.health * (12 / 10) ≤ p.health ∧
        (4 / 10 : ℚ) ≤ jsOr p.aggression (3 / 10) ∧
        p.maxEnergy * (6 / 10) ≤ p.energy ∧
        q.defenseType ≠ "explosive" ∧
        (q.defenseType = "poison" → (7 / 10 : ℚ) ≤ p.toxinResistance))) ∧
    (∀ (pred prey : P0.Cell) (tick : ℤ) (pr roll : Bool),
      (P0.handlePredation pred prey tick pr roll).2.health = 0 ∧
      (pred.energy ≤ pred.maxEnergy →
        (P0.handlePredation pred prey tick pr roll).1.energy ≤
          pred.maxEnergy) ∧
      (pred.health ≤ pred.maxHealth →
        (P0.handlePredation pred prey tick pr roll).1.health ≤
          pred.maxHealth)) := by
  refine ⟨?_, ?_, ?_⟩
  · intro calcDef specialFx c1 c2 coopRand tick pr roll
    constructor <;> intro h <;> simp only [P0.handleCellInteraction] at h <;>
      · split at h
        · simp at h
        · split at h
          · simp at h
          · split_ifs at h with h1 h2 <;> simp_all
  · intro p q
    simp only [P0.canPredate]
    split_ifs with h1 h2 h3 h4 h5 h6 h7 h8
    · exact iff_of_false (by simp)
        (fun hh => absurd hh.1 (not_le.mpr h1))
    · exact iff_of_false (by simp)
        (fun hh => absurd hh.2.1 (not_le.mpr h2))
    · exact iff_of_false (by simp)
        (fun hh => absurd hh.2.2.1 (not_le.mpr h3))
    · exact iff_of_false (by simp)
        (fun hh => absurd hh.2.2.2.1 (not_le.mpr h4))
    · exact iff_of_false (by simp)
        (fun hh => absurd (beq_iff_eq.mp h5) hh.2.2.2.2.1)
    · refine iff_of_false (by simp) (fun hh => ?_)
      have hp := Bool.and_eq_true_iff.mp h6
      exact absurd (hh.2.2.2.2.2 (beq_iff_eq.mp hp.1))
        (not_le.mpr (of_decide_eq_true hp.2))
    · exact iff_of_true rfl
        ⟨not_lt.mp h1, not_lt.mp h2, not_lt.mp h3, not_lt.mp h4,
         fun he => h5 (beq_iff_eq.mpr he),
         fun hpois => not_lt.mp (fun hlt => h6 (by simp [hpois, hlt]))⟩
    · exact iff_of_true rfl
        ⟨not_lt.mp h1, not_lt.mp h2, not_lt.mp h3, not_lt.mp h4,
         fun he => h5 (beq_iff_eq.mpr he),
         fun hpois => not_lt.mp (fun hlt => h6 (by simp [hpois, hlt]))⟩
    · exact iff_of_true rfl
        ⟨not_lt.mp h1, not_lt.mp h2, not_lt.mp h3, not_lt.mp h4,
         fun he => h5 (beq_iff_eq.mpr he),
         fun hpois => not_lt.mp (fun hlt => h6 (by simp [hpois, hlt]))⟩
  · intro pred prey tick pr roll
    have hE : (P0.handlePredation pred prey tick pr roll).1.energy =
        pred.energy + min (prey.maxEnergy * (8 / 10))
          (pred.maxEnergy - pred.energy) := by
      simp only [P0.handlePredation]
      split_ifs <;> rfl
    have hH : (P0.handlePredation pred prey tick pr roll).1.health =
        pred.health + min (prey.maxHealth * (3 / 10))
          (pred.maxHealth - pred.health) := by
      simp only [P0.handlePredation]
      split_ifs <;> rfl
    refine ⟨rfl, ?_, ?_⟩
    · intro h
      rw [hE]
      have hm := min_le_right (prey.maxEnergy * (8 / 10))
        (pred.maxEnergy - pred.energy)
      linarith
    · intro h
      rw [hH]
      have hm := min_le_right (prey.maxHealth * (3 / 10))
        (pred.maxHealth - pred.health)
      linarith

/-- C5 witness: the concrete predator/prey pair collides, declines
cooperation, passes `canPredate`, and the dispatcher reports predation. -/
theorem C5_witness :
    (P0.handleCellInteraction calcDefId fxId predatorCell preyCell 1 0 false
      false).1 = P0.Outcome.predation12 ∧
    P0.canPredate predatorCell preyCell = true := by
  have houtcome : (P0.handleCellInteraction calcDefId fxId predatorCell
      preyCell 1 0 false false).1 = P0.Outcome.predation12 := by
    simp [P0.handleCellInteraction, P0.collidesWith, sqrtDistLt,
      P0.attemptCooperation, P0.canPredate, P0.handlePredation,
      predatorCell, preyCell, jsOr]
    norm_num
  exact ⟨houtcome,
    (C5_predation.1 calcDefId fxId predatorCell preyCell 1 0 false
      false).1 houtcome⟩

theorem interactPair_spec
    (interact : CellJS.Cell → CellJS.Cell → CellJS.Cell × CellJS.Cell)
    (i : ℕ) (st : SimJS.PassState) (j : ℕ) :
    (SimJS.interactPair interact i st j).cells.length = st.cells.length ∧
    (SimJS.interactPair interact i st j).dead = st.dead ∧
    (SimJS.interactPair interact i st j).newCells = st.newCells ∧
    ((SimJS.interactPair interact i st j).log = st.log ∨
      (SimJS.interactPair interact i st j).log = st.log ++ [(i, j)]) := by
  simp only [SimJS.interactPair]
  split_ifs
  · exact ⟨rfl, rfl, rfl, Or.inl rfl⟩
  · refine ⟨?_, rfl, rfl, Or.inr rfl⟩
    simp [List.length_set]
  · exact ⟨rfl, rfl, rfl, Or.inl rfl⟩

theorem interactFold_spec
    (interact : CellJS.Cell → CellJS.Cell → CellJS.Cell × CellJS.Cell)
    (i : ℕ) :
    ∀ (l : List ℕ) (st : SimJS.PassState),
      (l.foldl (SimJS.interactPair interact i) st).cells.length =
        st.cells.length ∧
      (l.foldl (SimJS.interactPair interact i) st).dead = st.dead ∧
      (l.foldl (SimJS.interactPair interact i) st).newCells = st.newCells ∧
      ∃ suf, (l.foldl (SimJS.interactPair interact i) st).log = st.log ++ suf ∧
        ∀ p ∈ suf, p.1 = i ∧ p.2 ∈ l := by
  intro l
  induction l with
  | nil =>
    intro st
    exact ⟨rfl, rfl, rfl, [], by simp, by simp⟩
  | cons j l ih =>
    intro st
    simp only [List.foldl_cons]
    obtain ⟨h1, h2, h3, suf, hlog, hsuf⟩ :=
      ih (SimJS.interactPair interact i st j)
    obtain ⟨g1, g2, g3, glog⟩ := interactPair_spec interact i st j
    refine ⟨h1.trans g1, h2.trans g2, h3.trans g3, ?_⟩
    rcases glog with hl | hl
    · refine ⟨suf, by rw [hlog, hl], fun p hp => ?_⟩
      exact ⟨(hsuf p hp).1, List.mem_cons_of_mem _ (hsuf p hp).2⟩
    · refine ⟨(i, j) :: suf, ?_, ?_⟩
      · rw [hlog, hl, List.append_assoc, List.singleton_append]
      · intro p hp
        rcases List.mem_cons.mp hp with rfl | hp2
        · exact ⟨rfl, List.mem_cons_self _ _⟩
        · exact ⟨(hsuf p hp2).1, List.mem_cons_of_mem _ (hsuf p hp2).2⟩

theorem interactStep_spec
    (interact : CellJS.Cell → CellJS.Cell → CellJS.Cell × CellJS.Cell)
    (i : ℕ) (st : SimJS.PassState) :
    (SimJS.interactStep interact i st).cells.length = st.cells.length ∧
    (SimJS.interactStep interact i st).dead = st.dead ∧
    (SimJS.interactStep interact i st).newCells = st.newCells ∧
    ∃ suf, (SimJS.interactStep interact i st).log = st.log ++ suf ∧
      ∀ p ∈ suf, p.1 = i ∧ p.2 < st.cells.length := by
  simp only [SimJS.interactStep]
  obtain ⟨h1, h2, h3, suf, hlog, hsuf⟩ :=
    interactFold_spec interact i (List.range st.cells.length) st
  exact ⟨h1, h2, h3, suf, hlog, fun p hp =>
    ⟨(hsuf p hp).1, List.mem_range.mp (hsuf p hp).2⟩⟩

theorem passStep_spec (uc : CellJS.Cell → CellJS.Cell × Bool)
    (ic : CellJS.Cell → CellJS.Cell → CellJS.Cell × CellJS.Cell)
    (rp : CellJS.Cell → CellJS.Cell × Option CellJS.Cell)
    (mc : ℕ) (st : SimJS.PassState) (i : ℕ) :
    (SimJS.passStep uc ic rp mc st i).cells.length = st.cells.length ∧
    (((SimJS.passStep uc ic rp mc st i).dead = st.dead ++ [i] ∧
        (SimJS.passStep uc ic rp mc st i).log = st.log) ∨
      ((SimJS.passStep uc ic rp mc st i).dead = st.dead ∧
        ∃ suf, (SimJS.passStep uc ic rp mc st i).log = st.log ++ suf ∧
          ∀ p ∈ suf, p.1 = i ∧ p.2 < st.cells.length)) := by
  have hrepro : ∀ (st2 : SimJS.PassState),
      (SimJS.reproPhase rp mc st2 i).cells.length = st2.cells.length ∧
      (SimJS.reproPhase rp mc st2 i).dead = st2.dead ∧
      (SimJS.reproPhase rp mc st2 i).log = st2.log := by
    intro st2
    simp only [SimJS.reproPhase]
    by_cases hr : (st2.cells.getD i default).reproduced
    · rw [if_pos hr]
      cases hoff : (rp (st2.cells.getD i default)).2 with
      | none => exact ⟨by simp [List.length_set], rfl, rfl⟩
      | some o =>
        split_ifs with hcap
        · exact ⟨by simp [List.length_set], rfl, rfl⟩
        · exact ⟨by simp [List.length_set], rfl, rfl⟩
    · rw [if_neg hr]
      exact ⟨rfl, rfl, rfl⟩
  simp only [SimJS.passStep]
  split_ifs with hdead
  · exact ⟨by simp [List.length_set], Or.inl ⟨rfl, rfl⟩⟩
  · obtain ⟨h1, h2, h3, suf, hlog, hsuf⟩ := interactStep_spec ic i
      { st with
          cells := (st.cells.set i (uc (st.cells.getD i default)).1).set i
            (SimJS.eatPhase (uc (st.cells.getD i default)).1 st.fm.food).1
          fm := { st.fm with
            food := (SimJS.eatPhase (uc (st.cells.getD i default)).1
              st.fm.food).2 } }
    obtain ⟨r1, r2, r3⟩ := hrepro (SimJS.interactStep ic i
      { st with
          cells := (st.cells.set i (uc (st.cells.getD i default)).1).set i
            (SimJS.eatPhase (uc (st.cells.getD i default)).1 st.fm.food).1
          fm := { st.fm with
            food := (SimJS.eatPhase (uc (st.cells.getD i default)).1
              st.fm.food).2 } })
    refine ⟨?_, Or.inr ⟨?_, suf, ?_, ?_⟩⟩
    · rw [r1, h1]; simp [List.length_set]
    · rw [r2, h2]
    · rw [r3, hlog]
    · intro p hp
      have := hsuf p hp
      simp only [List.length_set] at this
      exact ⟨this.1, this.2⟩

theorem passFold_inv (uc : CellJS.Cell → CellJS.Cell × Bool)
    (ic : CellJS.Cell → CellJS.Cell → CellJS.Cell × CellJS.Cell)
    (rp : CellJS.Cell → CellJS.Cell × Option CellJS.Cell)
    (mc : ℕ) (cells : List CellJS.Cell) (fm : CameraJS.FoodManager) :
    ∀ m : ℕ,
      ((List.range m).foldl (SimJS.passStep uc ic rp mc)
          ⟨cells, [], [], [], fm⟩).cells.length = cells.length ∧
      (∀ d ∈ ((List.range m).foldl (SimJS.passStep uc ic rp mc)
          ⟨cells, [], [], [], fm⟩).dead, d < m) ∧
      List.Sorted (· < ·) ((List.range m).foldl (SimJS.passStep uc ic rp mc)
          ⟨cells, [], [], [], fm⟩).dead ∧
      (∀ p ∈ ((List.range m).foldl (SimJS.passStep uc ic rp mc)
          ⟨cells, [], [], [], fm⟩).log,
        p.1 < m ∧ p.2 < cells.length ∧
          p.1 ∉ ((List.range m).foldl (SimJS.passStep uc ic rp mc)
            ⟨cells, [], [], [], fm⟩).dead) := by
  intro m
  induction m with
  | zero => simp
  | succ m ih =>
    rw [List.range_succ, List.foldl_append, List.foldl_cons, List.foldl_nil]
    obtain ⟨ih1, ih2, ih3, ih4⟩ := ih
    obtain ⟨s1, scase⟩ := passStep_spec uc ic rp mc
      ((List.range m).foldl (SimJS.passStep uc ic rp mc)
        ⟨cells, [], [], [], fm⟩) m
    refine ⟨s1.trans ih1, ?_⟩
    rcases scase with ⟨hd, hl⟩ | ⟨hd, suf, hl, hsuf⟩
    · refine ⟨?_, ?_, ?_⟩
      · intro d hdm
        rw [hd] at hdm
        rcases List.mem_append.mp hdm with h | h
        · exact Nat.lt_succ_of_lt (ih2 d h)
        · simp only [List.mem_singleton] at h
          omega
      · rw [hd]
        refine List.pairwise_append.mpr ⟨ih3, List.pairwise_singleton _ _, ?_⟩
        intro a ha b hb
        simp only [List.mem_singleton] at hb
        subst hb
        exact ih2 a ha
      · intro p hp
        rw [hl] at hp
        obtain ⟨q1, q2, q3⟩ := ih4 p hp
        refine ⟨Nat.lt_succ_of_lt q1, q2, ?_⟩
        rw [hd]
        intro hmem
        rcases List.mem_append.mp hmem with h | h
        · exact q3 h
        · simp only [List.mem_singleton] at h
          omega
    · refine ⟨?_, ?_, ?_⟩
      · intro d hdm
        rw [hd] at hdm
        exact Nat.lt_succ_of_lt (ih2 d hdm)
      · rw [hd]; exact ih3
      · intro p hp
        rw [hl] at hp
        rcases List.mem_append.mp hp with h | h
        · obtain ⟨q1, q2, q3⟩ := ih4 p h
          exact ⟨Nat.lt_succ_of_lt q1, q2, by rw [hd]; exact q3⟩
        · obtain ⟨q1, q2⟩ := hsuf p h
          rw [ih1] at q2
          refine ⟨by omega, q2, ?_⟩
          rw [hd, q1]
          intro hmem
          exact absurd (ih2 m hmem) (lt_irrefl m)

theorem sorted_lt_count :
    ∀ (l : List ℕ) (a L : ℕ), List.Sorted (· < ·) l → (∀ x ∈ l, x < L) →
      (∀ x ∈ l, a < x) → a < L → a + l.length < L := by
  intro l
  induction l with
  | nil => intro a L _ _ _ h; simpa using h
  | cons b l ih =>
    intro a L hs hL hgt haL
    have hparts := List.pairwise_cons.mp hs
    have h2 := ih b L hparts.2 (fun x hx => hL x (List.mem_cons_of_mem _ hx))
      hparts.1 (hL b (List.mem_cons_self _ _))
    have hab : a < b := hgt b (List.mem_cons_self _ _)
    simp only [List.length_cons]
    omega

theorem sorted_lt_length (l : List ℕ) (n : ℕ) (hs : List.Sorted (· < ·) l)
    (hL : ∀ x ∈ l, x < n) : l.length ≤ n := by
  rcases l with _ | ⟨a, l⟩
  · simp
  · have hparts := List.pairwise_cons.mp hs
    have := sorted_lt_count l a n hparts.2
      (fun x hx => hL x (List.mem_cons_of_mem _ hx)) hparts.1
      (hL a (List.mem_cons_self _ _))
    simp only [List.length_cons]
    omega

theorem removeFold_spec (oracle : ℕ → CameraJS.SpawnOracle) :
    ∀ (ds : List ℕ) (st : SimJS.PassState) (k : ℕ),
      List.Sorted (· < ·) ds → (∀ d ∈ ds, d < st.cells.length) →
      ((ds.reverse.foldl (SimJS.removeStep oracle) (st, k)).1.cells.length
          = st.cells.length - ds.length) ∧
      (ds.reverse.foldl (SimJS.removeStep oracle) (st, k)).1.dead = st.dead ∧
      (ds.reverse.foldl (SimJS.removeStep oracle) (st, k)).1.log = st.log ∧
      (ds.reverse.foldl (SimJS.removeStep oracle) (st, k)).1.newCells
          = st.newCells := by
  intro ds
  induction ds with
  | nil => intro st k _ _; simp
  | cons a ds ih =>
    intro st k hs hb
    have hparts := List.pairwise_cons.mp hs
    rw [List.reverse_cons, List.foldl_append, List.foldl_cons, List.foldl_nil]
    obtain ⟨t1, t2, t3, t4⟩ := ih st k hparts.2
      (fun d hd => hb d (List.mem_cons_of_mem _ hd))
    have hcount := sorted_lt_count ds a st.cells.length hparts.2
      (fun x hx => hb x (List.mem_cons_of_mem _ hx)) hparts.1
      (hb a (List.mem_cons_self _ _))
    have ha : a < (ds.reverse.foldl (SimJS.removeStep oracle)
        (st, k)).1.cells.length := by
      rw [t1]; omega
    refine ⟨?_, ?_, ?_, ?_⟩
    · simp only [SimJS.removeStep]
      rw [List.length_eraseIdx_of_lt ha, t1]
      simp only [List.length_cons]
      omega
    · simp only [SimJS.removeStep]
      exact t2
    · simp only [SimJS.removeStep]
      exact t3
    · simp only [SimJS.removeStep]
      exact t4

theorem removePhase_spec (oracle : ℕ → CameraJS.SpawnOracle)
    (st : SimJS.PassState) (hs : List.Sorted (· < ·) st.dead)
    (hb : ∀ d ∈ st.dead, d < st.cells.length) :
    (SimJS.removePhase oracle st).cells.length
        = st.cells.length - st.dead.length ∧
    (SimJS.removePhase oracle st).dead = st.dead ∧
    (SimJS.removePhase oracle st).log = st.log ∧
    (SimJS.removePhase oracle st).newCells = st.newCells := by
  simp only [SimJS.removePhase]
  exact removeFold_spec oracle st.dead st 0 hs hb

theorem foldl_food_length {α : Type}
    (step : CameraJS.FoodManager → α → CameraJS.FoodManager)
    (hstep : ∀ fm a, (step fm a).food.length = fm.food.length + 1) :
    ∀ (l : List α) (fm : CameraJS.FoodManager),
      (l.foldl step fm).food.length = fm.food.length + l.length := by
  intro l
  induction l with
  | nil => intro fm; simp
  | cons a l ih =>
    intro fm
    rw [List.foldl_cons, ih, hstep]
    simp only [List.length_cons]
    omega

theorem spawnFood_length (fm : CameraJS.FoodManager) (x y rCat rSz rAge : ℚ) :
    (fm.spawnFood x y rCat rSz rAge).food.length = fm.food.length + 1 := by
  simp only [CameraJS.FoodManager.spawnFood]
  split_ifs <;> simp

theorem spawnFromDeath_length (fm : CameraJS.FoodManager) (x y s : ℚ)
    (o : CameraJS.SpawnOracle) :
    (fm.spawnFromDeath x y s o).food.length =
      fm.food.length + (⌊s / 4⌋ + 1).toNat := by
  simp only [CameraJS.FoodManager.spawnFromDeath]
  rw [foldl_food_length _ (fun fm i => spawnFood_length fm _ _ _ _ _),
    List.length_range]

theorem absMulBound (c d s : ℚ) (hc : |c| ≤ 1) (hd0 : 0 ≤ d) (hd1 : d ≤ 1)
    (hs : 0 ≤ s) : |c * (d * s * 2)| ≤ 2 * s := by
  rw [abs_mul]
  have h4 : |d * s * 2| = d * s * 2 := abs_of_nonneg (by positivity)
  rw [h4]
  have hA : |c| * (d * s * 2) ≤ 1 * (d * s * 2) :=
    mul_le_mul_of_nonneg_right hc (by positivity)
  nlinarith [hA, mul_nonneg (sub_nonneg.mpr hd1) hs]

theorem spawnFromDeath_near (fm : CameraJS.FoodManager) (x y s : ℚ)
    (o : CameraJS.SpawnOracle)
    (hco : ∀ i, |o.co i| ≤ 1) (hsi : ∀ i, |o.si i| ≤ 1)
    (hdi : ∀ i, 0 ≤ o.di i ∧ o.di i ≤ 1) (hs : 0 ≤ s)
    (hx1 : 10 + 2 * s ≤ x) (hx2 : x ≤ fm.width - 10 - 2 * s)
    (hy1 : 10 + 2 * s ≤ y) (hy2 : y ≤ fm.height - 10 - 2 * s) :
    ∀ f ∈ (fm.spawnFromDeath x y s o).food,
      f ∈ fm.food ∨ (|f.x - x| ≤ 2 * s ∧ |f.y - y| ≤ 2 * s) := by
  simp only [CameraJS.FoodManager.spawnFromDeath]
  have key : ∀ (l : List ℕ) (fm2 : CameraJS.FoodManager),
      fm2.width = fm.width → fm2.height = fm.height →
      (∀ f ∈ fm2.food, f ∈ fm.food ∨ (|f.x - x| ≤ 2 * s ∧ |f.y - y| ≤ 2 * s)) →
      ∀ f ∈ (l.foldl (fun fm2 i =>
          fm2.spawnFood
            (max 10 (min (fm2.width - 10) (x + o.co i * (o.di i * s * 2))))
            (max 10 (min (fm2.height - 10) (y + o.si i * (o.di i * s * 2))))
            (o.cat i) (o.sz i) (o.ageR i)) fm2).food,
        f ∈ fm.food ∨ (|f.x - x| ≤ 2 * s ∧ |f.y - y| ≤ 2 * s) := by
    intro l
    induction l with
    | nil => intro fm2 _ _ hmem f hf; exact hmem f hf
    | cons i l ih =>
      intro fm2 hw hh hmem f hf
      rw [List.foldl_cons] at hf
      refine ih _ ?_ ?_ ?_ f hf
      · simp [CameraJS.FoodManager.spawnFood, hw]
      · simp [CameraJS.FoodManager.spawnFood, hh]
      · intro g hg
        simp only [CameraJS.FoodManager.spawnFood, List.mem_append,
          List.mem_singleton] at hg
        rcases hg with hg | hg
        · exact hmem g hg
        · right
          have hoff : |o.co i * (o.di i * s * 2)| ≤ 2 * s :=
            absMulBound _ _ _ (hco i) (hdi i).1 (hdi i).2 hs
          have hxoff : max 10 (min (fm2.width - 10)
              (x + o.co i * (o.di i * s * 2))) = x + o.co i * (o.di i * s * 2) := by
            have hle := abs_le.mp hoff
            rw [min_eq_right (by rw [hw]; linarith), max_eq_right (by linarith)]
          have hyoff : max 10 (min (fm2.height - 10)
              (y + o.si i * (o.di i * s * 2))) = y + o.si i * (o.di i * s * 2) := by
            have hoffy : |o.si i * (o.di i * s * 2)| ≤ 2 * s :=
              absMulBound _ _ _ (hsi i) (hdi i).1 (hdi i).2 hs
            have hle := abs_le.mp hoffy
            rw [min_eq_right (by rw [hh]; linarith), max_eq_right (by linarith)]
          subst hg
          constructor
          · rw [CameraJS.Food.create, hxoff]
            simpa using hoff
          · have hoffy : |o.si i * (o.di i * s * 2)| ≤ 2 * s :=
              absMulBound _ _ _ (hsi i) (hdi i).1 (hdi i).2 hs
            rw [CameraJS.Food.create, hyoff]
            simpa using hoffy
  exact key (List.range (⌊s / 4⌋ + 1).toNat) fm rfl rfl
    (fun f hf => Or.inl hf)

/-- C8 (amended): in `updateSingleStep`, every `handleCellInteraction`
invocation is initiated by a cell that passed its own liveness check this
tick (a dead-marked cell never initiates — `p.1` is never recorded dead),
and the interaction pass only ever references the indices of the cells
present when the tick started (`p.1, p.2 < cells.length`), so offspring —
appended after the pass — never participate in the tick that spawned
them.  Dead-marked cells can still participate passively: see the
counterexample. -/
theorem C8_interaction_schedule
    (uc : CellJS.Cell → CellJS.Cell × Bool)
    (ic : CellJS.Cell → CellJS.Cell → CellJS.Cell × CellJS.Cell)
    (rp : CellJS.Cell → CellJS.Cell × Option CellJS.Cell)
    (mc : ℕ) (o : CameraJS.SpawnOracle) (oracle : ℕ → CameraJS.SpawnOracle)
    (cells : List CellJS.Cell) (colonies : List CellJS.Colony)
    (fm : CameraJS.FoodManager) :
    ∀ p ∈ (SimJS.updateSingleStep uc ic rp mc o oracle cells colonies
        fm).1.log,
      p.1 < cells.length ∧ p.2 < cells.length ∧
        p.1 ∉ (SimJS.updateSingleStep uc ic rp mc o oracle cells colonies
          fm).1.dead := by
  obtain ⟨i1, i2, i3, i4⟩ :=
    passFold_inv uc ic rp mc cells (fm.update o) cells.length
  have hrm := removePhase_spec oracle
    ((List.range cells.length).foldl (SimJS.passStep uc ic rp mc)
      ⟨cells, [], [], [], fm.update o⟩) i3
    (fun d hd => by rw [i1]; exact i2 d hd)
  have hlog : (SimJS.updateSingleStep uc ic rp mc o oracle cells colonies
      fm).1.log =
      ((List.range cells.length).foldl (SimJS.passStep uc ic rp mc)
        ⟨cells, [], [], [], fm.update o⟩).log := by
    simp only [SimJS.updateSingleStep]
    exact hrm.2.2.1
  have hdead : (SimJS.updateSingleStep uc ic rp mc o oracle cells colonies
      fm).1.dead =
      ((List.range cells.length).foldl (SimJS.passStep uc ic rp mc)
        ⟨cells, [], [], [], fm.update o⟩).dead := by
    simp only [SimJS.updateSingleStep]
    exact hrm.2.1
  intro p hp
  rw [hlog] at hp
  obtain ⟨q1, q2, q3⟩ := i4 p hp
  exact ⟨q1, q2, by rw [hdead]; exact q3⟩

/-- C8 counterexample: in a two-cell tick where the cell at index 0 is
marked dead by its own update (energy exhausted) and the live cell at
index 1 overlaps it, the interaction pass still invokes
`handleCellInteraction` with the dead cell as the passive partner — the
log records the pair `(1, 0)` while index 0 is in the dead list — so a
cell already marked dead does participate in the pairwise interaction
pass of that tick. -/
theorem C8_counterexample :
    (1, 0) ∈ (SimJS.updateSingleStep updEnergyAlive interactId reproNone 100
      oracle0 (fun _ => oracle0) [deadOverlap, liveOverlap] []
      quietFm).1.log ∧
    0 ∈ (SimJS.updateSingleStep updEnergyAlive interactId reproNone 100
      oracle0 (fun _ => oracle0) [deadOverlap, liveOverlap] []
      quietFm).1.dead := by
  norm_num [SimJS.updateSingleStep, SimJS.passStep, SimJS.reproPhase,
    SimJS.interactStep, SimJS.interactPair, SimJS.eatPhase,
    SimJS.removePhase, SimJS.removeStep, SimJS.updateColonies,
    CameraJS.FoodManager.update, CameraJS.FoodManager.spawnFromDeath,
    CameraJS.FoodManager.spawnFood, CameraJS.Food.create,
    CameraJS.Food.update, CellJS.eat, CellJS.canEat, CellJS.collidesWith,
    sqrtDistLt, updEnergyAlive, interactId, reproNone, oracle0, deadOverlap,
    liveOverlap, quietFm, List.range_succ]

/-- C8 witness: the schedule property applied to the concrete two-cell
scenario at the logged pair `(1, 0)`. -/
theorem C8_witness :
    ((1, 0) : ℕ × ℕ).1 < ([deadOverlap, liveOverlap] : List CellJS.Cell).length ∧
    ((1, 0) : ℕ × ℕ).2 < ([deadOverlap, liveOverlap] : List CellJS.Cell).length ∧
    ((1, 0) : ℕ × ℕ).1 ∉ (SimJS.updateSingleStep updEnergyAlive interactId
      reproNone 100 oracle0 (fun _ => oracle0) [deadOverlap, liveOverlap] []
      quietFm).1.dead := by
  apply C8_interaction_schedule
  norm_num [SimJS.updateSingleStep, SimJS.passStep, SimJS.reproPhase,
    SimJS.interactStep, SimJS.interactPair, SimJS.eatPhase,
    SimJS.removePhase, SimJS.removeStep, SimJS.updateColonies,
    CameraJS.FoodManager.update, CameraJS.FoodManager.spawnFromDeath,
    CameraJS.FoodManager.spawnFood, CameraJS.Food.create,
    CameraJS.Food.update, CellJS.eat, CellJS.canEat, CellJS.collidesWith,
    sqrtDistLt, updEnergyAlive, interactId, reproNone, oracle0, deadOverlap,
    liveOverlap, quietFm, List.range_succ]

/-- C3 (amended): when a cell dies, `spawnFromDeath` adds exactly
`⌊size/4⌋ + 1` food particles, each within `2 × size` of the death point
whenever that point sits inside the world margins; the tick's removal
phase splices exactly the dead-marked cells out of the cells array
(lengths balance); but the colony list that comes out of the tick is a
sublist of the one that went in — no member list is ever edited — so a
dead cell is NOT removed from its colony's member list (nor from other
cells' bond arrays, which the death path never touches). -/
theorem C3_death_cleanup :
    (∀ (fm : CameraJS.FoodManager) (x y s : ℚ) (o : CameraJS.SpawnOracle),
      (fm.spawnFromDeath x y s o).food.length =
        fm.food.length + (⌊s / 4⌋ + 1).toNat) ∧
    (∀ (fm : CameraJS.FoodManager) (x y s : ℚ) (o : CameraJS.SpawnOracle),
      (∀ i, |o.co i| ≤ 1) → (∀ i, |o.si i| ≤ 1) →
      (∀ i, 0 ≤ o.di i ∧ o.di i ≤ 1) → 0 ≤ s →
      10 + 2 * s ≤ x → x ≤ fm.width - 10 - 2 * s →
      10 + 2 * s ≤ y → y ≤ fm.height - 10 - 2 * s →
      ∀ f ∈ (fm.spawnFromDeath x y s o).food,
        f ∈ fm.food ∨ (|f.x - x| ≤ 2 * s ∧ |f.y - y| ≤ 2 * s)) ∧
    (∀ (uc : CellJS.Cell → CellJS.Cell × Bool)
        (ic : CellJS.Cell → CellJS.Cell → CellJS.Cell × CellJS.Cell)
        (rp : CellJS.Cell → CellJS.Cell × Option CellJS.Cell)
        (mc : ℕ) (o : CameraJS.SpawnOracle)
        (oracle : ℕ → CameraJS.SpawnOracle)
        (cells : List CellJS.Cell) (colonies : List CellJS.Colony)
        (fm : CameraJS.FoodManager),
      (SimJS.updateSingleStep uc ic rp mc o oracle cells colonies
          fm).1.cells.length +
        (SimJS.updateSingleStep uc ic rp mc o oracle cells colonies
          fm).1.dead.length =
      cells.length +
        (SimJS.updateSingleStep uc ic rp mc o oracle cells colonies
          fm).1.newCells.length) ∧
    (∀ (uc : CellJS.Cell → CellJS.Cell × Bool)
        (ic : CellJS.Cell → CellJS.Cell → CellJS.Cell × CellJS.Cell)
        (rp : CellJS.Cell → CellJS.Cell × Option CellJS.Cell)
        (mc : ℕ) (o : CameraJS.SpawnOracle)
        (oracle : ℕ → CameraJS.SpawnOracle)
        (cells : List CellJS.Cell) (colonies : List CellJS.Colony)
        (fm : CameraJS.FoodManager),
      ∀ col ∈ (SimJS.updateSingleStep uc ic rp mc o oracle cells colonies
        fm).2, col ∈ colonies) := by
  refine ⟨spawnFromDeath_length, spawnFromDeath_near, ?_, ?_⟩
  · intro uc ic rp mc o oracle cells colonies fm
    obtain ⟨i1, i2, i3, i4⟩ :=
      passFold_inv uc ic rp mc cells (fm.update o) cells.length
    have hb : ∀ d ∈ ((List.range cells.length).foldl
        (SimJS.passStep uc ic rp mc)
        ⟨cells, [], [], [], fm.update o⟩).dead,
        d < ((List.range cells.length).foldl (SimJS.passStep uc ic rp mc)
          ⟨cells, [], [], [], fm.update o⟩).cells.length := by
      intro d hd
      rw [i1]
      exact i2 d hd
    have hrm := removePhase_spec oracle
      ((List.range cells.length).foldl (SimJS.passStep uc ic rp mc)
        ⟨cells, [], [], [], fm.update o⟩) i3 hb
    have hdlen := sorted_lt_length _ cells.length i3 i2
    have hcells : (SimJS.updateSingleStep uc ic rp mc o oracle cells colonies
        fm).1.cells.length =
        (cells.length - ((List.range cells.length).foldl
          (SimJS.passStep uc ic rp mc)
          ⟨cells, [], [], [], fm.update o⟩).dead.length) +
        ((List.range cells.length).foldl (SimJS.passStep uc ic rp mc)
          ⟨cells, [], [], [], fm.update o⟩).newCells.length := by
      simp only [SimJS.updateSingleStep, List.length_append]
      rw [hrm.1, i1, hrm.2.2.2]
    have hdd : (SimJS.updateSingleStep uc ic rp mc o oracle cells colonies
        fm).1.dead = ((List.range cells.length).foldl
          (SimJS.passStep uc ic rp mc)
          ⟨cells, [], [], [], fm.update o⟩).dead := by
      simp only [SimJS.updateSingleStep]
      exact hrm.2.1
    have hnn : (SimJS.updateSingleStep uc ic rp mc o oracle cells colonies
        fm).1.newCells = ((List.range cells.length).foldl
          (SimJS.passStep uc ic rp mc)
          ⟨cells, [], [], [], fm.update o⟩).newCells := by
      simp only [SimJS.updateSingleStep]
      exact hrm.2.2.2
    rw [hcells, hdd, hnn]
    omega
  · intro uc ic rp mc o oracle cells colonies fm col hcol
    simp only [SimJS.updateSingleStep, SimJS.updateColonies] at hcol
    exact (List.mem_filter.mp hcol).1

/-- C3 counterexample: a two-member colony whose member with id 1 dies
during the tick.  Afterwards the dead cell is gone from the cells list
and `⌊8/4⌋ + 1 = 3` food particles have been spawned — but the colony's
member list still contains id 1, and the survivor's `bonds` array still
lists id 1, refuting removal "from every container" in the death tick. -/
theorem C3_counterexample :
    (SimJS.updateSingleStep updEnergyAlive interactId reproNone 100 oracle0
      (fun _ => oracle0) [dyingMember, survivingMember]
      [⟨[1, 2], []⟩] quietFm).1.cells = [survivingMember] ∧
    (SimJS.updateSingleStep updEnergyAlive interactId reproNone 100 oracle0
      (fun _ => oracle0) [dyingMember, survivingMember]
      [⟨[1, 2], []⟩] quietFm).2 = [(⟨[1, 2], []⟩ : CellJS.Colony)] ∧
    dyingMember.id = 1 ∧ survivingMember.id = 2 ∧
    (1 : ℕ) ∈ survivingMember.bonds ∧
    (SimJS.updateSingleStep updEnergyAlive interactId reproNone 100 oracle0
      (fun _ => oracle0) [dyingMember, survivingMember]
      [⟨[1, 2], []⟩] quietFm).1.fm.food.length = 3 := by
  norm_num [SimJS.updateSingleStep, SimJS.passStep, SimJS.reproPhase,
    SimJS.interactStep, SimJS.interactPair, SimJS.eatPhase,
    SimJS.removePhase, SimJS.removeStep, SimJS.updateColonies,
    CameraJS.FoodManager.update, CameraJS.FoodManager.spawnFromDeath,
    CameraJS.FoodManager.spawnFood, CameraJS.Food.create,
    CameraJS.Food.update, CellJS.eat, CellJS.canEat, CellJS.collidesWith,
    sqrtDistLt, updEnergyAlive, interactId, reproNone, oracle0, dyingMember,
    survivingMember, quietFm, List.range_succ, Int.toNat_ofNat]
  norm_num [show Int.toNat 3 = 3 from rfl, List.range_succ]

/-- C3 witness: the amended food-count and nearness facts evaluated at a
concrete death point well inside the world. -/
theorem C3_witness :
    (quietFm.spawnFromDeath 100 100 8 oracle0).food.length =
      quietFm.food.length + (⌊(8 : ℚ) / 4⌋ + 1).toNat ∧
    (∀ f ∈ (quietFm.spawnFromDeath 100 100 8 oracle0).food,
      f ∈ quietFm.food ∨ (|f.x - 100| ≤ 2 * 8 ∧ |f.y - 100| ≤ 2 * 8)) :=
  ⟨C3_death_cleanup.1 quietFm 100 100 8 oracle0,
   C3_death_cleanup.2.1 quietFm 100 100 8 oracle0
     (fun i => by norm_num [oracle0]) (fun i => by norm_num [oracle0])
     (fun i => by norm_num [oracle0]) (by norm_num)
     (by norm_num [quietFm]) (by norm_num [quietFm])
     (by norm_num [quietFm]) (by norm_num [quietFm])⟩

theorem territorialFold_spec (terr : ℚ × ℚ × ℚ) :
    ∀ (cells : List CellJS.Cell) (acc : CellJS.Cell),
      (cells.foldl (CellJS.territorialStep terr) acc).traits.health =
        acc.traits.health + (2 / 10) *
          ((cells.filter (fun intruder => !(intruder.id == acc.id) &&
            sqrtDistLt (intruder.x - terr.1) (intruder.y - terr.2.1)
              terr.2.2)).length : ℚ) ∧
      (cells.foldl (CellJS.territorialStep terr) acc).id = acc.id := by
  intro cells
  induction cells with
  | nil => intro acc; simp
  | cons a l ih =>
    intro acc
    simp only [List.foldl_cons, List.filter_cons, CellJS.territorialStep]
    by_cases h1 : (a.id == acc.id)
    · rw [if_pos h1]
      have hcount : (!(a.id == acc.id) && sqrtDistLt (a.x - terr.1)
          (a.y - terr.2.1) terr.2.2) = false := by
        simp [h1]
      rw [hcount]
      simpa using ih acc
    · rw [if_neg (by simpa using h1)]
      by_cases h2 : sqrtDistLt (a.x - terr.1) (a.y - terr.2.1) terr.2.2
      · rw [if_pos h2]
        have hcount : (!(a.id == acc.id) && sqrtDistLt (a.x - terr.1)
            (a.y - terr.2.1) terr.2.2) = true := by
          simp [h1, h2]
        rw [hcount, if_pos rfl]
        obtain ⟨ihh, ihid⟩ := ih
          { acc with
              target := some a.id
              traits := { acc.traits with
                health := acc.traits.health + 2 / 10 } }
        refine ⟨?_, ihid⟩
        rw [ihh]
        simp only [List.length_cons]
        push_cast
        ring
      · rw [if_neg h2]
        have hcount : (!(a.id == acc.id) && sqrtDistLt (a.x - terr.1)
            (a.y - terr.2.1) terr.2.2) = false := by
          simp [h2]
        rw [hcount]
        simpa using ih acc

/-- C1 (amended): the per-tick special-ability operations do not preserve
the documented energy/health caps — a photosynthetic cell gains exactly
`0.3 × (1 − opacity)` energy with no clamp against `maxEnergy`, and a
territorial cell gains exactly `0.2` health per intruder inside its
territory with no clamp against `maxHealth` — whereas food consumption
(`eat`) does clamp the cell's energy at `maxEnergy`. -/
theorem C1_bounds_behavior :
    (∀ c : CellJS.Cell, (CellJS.applySpecialAbilitiesPhoto c).traits.energy =
      c.traits.energy + (3 / 10) * (1 - c.opacity)) ∧
    (∀ (c : CellJS.Cell) (cells : List CellJS.Cell),
      (CellJS.territorialBehavior c cells).traits.health =
        c.traits.health + (2 / 10) * (CellJS.intruderCount c cells : ℚ)) ∧
    (∀ (c : CellJS.Cell) (f : CameraJS.Food),
      c.traits.energy ≤ c.traits.maxEnergy →
      (CellJS.eat c f).1.traits.energy ≤ c.traits.maxEnergy) := by
  refine ⟨fun c => rfl, ?_, ?_⟩
  · intro c cells
    simp only [CellJS.territorialBehavior, CellJS.intruderCount]
    exact (territorialFold_spec _ cells _).1
  · intro c f h
    simp only [CellJS.eat]
    split_ifs
    · exact min_le_right _ _
    · exact h

/-- C1 counterexample: a photosynthetic cell at its energy cap with
reduced opacity exceeds `maxEnergy` after one `applySpecialAbilities`
tick, so the per-tick operations do not preserve
`energy ≤ maxEnergy`. -/
theorem C1_counterexample :
    photoCell.traits.energy ≤ photoCell.traits.maxEnergy ∧
    photoCell.traits.specialAbility = "photosynthesis" ∧
    photoCell.traits.maxEnergy <
      (CellJS.applySpecialAbilitiesPhoto photoCell).traits.energy := by
  norm_num [CellJS.applySpecialAbilitiesPhoto, photoCell]

/-- C1 witness: the amended facts evaluated at the concrete
photosynthetic cell and at a concrete feeding. -/
theorem C1_witness :
    (CellJS.applySpecialAbilitiesPhoto photoCell).traits.energy =
      photoCell.traits.energy + (3 / 10) * (1 - photoCell.opacity) ∧
    (CellJS.eat fertileCell
      (CameraJS.Food.create 0 0 (some 6) 0 0)).1.traits.energy ≤
      fertileCell.traits.maxEnergy :=
  ⟨C1_bounds_behavior.1 photoCell,
   C1_bounds_behavior.2.2 fertileCell (CameraJS.Food.create 0 0 (some 6) 0 0)
     (by norm_num [fertileCell])⟩

/-- C2: evaluation of `Colony.removeMember` at a two-member colony.  With
the recorded bond present (the only reachable shape), the call throws a
`TypeError` — contradicting the source's own comment "Remove from other
cells' bond arrays" — leaving the survivor still listing the removed
cell.  Even with an empty bonds map, only the removed cell's own `bonds`
array is cleared, so the survivor still lists the removed cell and
symmetry is broken. -/
theorem C2_removeMember_bug :
    (CellJS.Colony.removeMember bondedColony [bondedA, bondedB] 1).2.2 =
      Except.error "TypeError: bond.includes is not a function" ∧
    (CellJS.Colony.removeMember bondedColony [bondedA, bondedB] 1).1.members
      = [2] ∧
    ((CellJS.Colony.removeMember bondedColony [bondedA, bondedB]
      1).2.1.getD 1 default).bonds = [1] ∧
    (CellJS.Colony.removeMember emptyMapColony [bondedA, bondedB] 1).2.2 =
      Except.ok true ∧
    ((CellJS.Colony.removeMember emptyMapColony [bondedA, bondedB]
      1).2.1.getD 0 default).bonds = [] ∧
    ((CellJS.Colony.removeMember emptyMapColony [bondedA, bondedB]
      1).2.1.getD 1 default).bonds = [1] := by
  norm_num [CellJS.Colony.removeMember, bondedColony, emptyMapColony,
    bondedA, bondedB, CellJS.setCell]
